import Mathlib

/-!
Shallow embedding of the excerpted ggrc-core sources:

* `ggrc/converters/base.py` — CSV import/export converters
  (`ExportConverter`, `ImportConverter`);
* `ggrc/gcalendar/calendar_event_builder.py` — `CalendarEventBuilder`;
* `ggrc_workflows_new/migrations/versions/20170429132647_..._create_label_table.py`
  — the `labels` table migration;
* `test/selenium/src/lib/rest/api_client.py` — the REST test client.

Pure functions become Lean functions; the database session and the two
in-memory mapping dictionaries of the calendar builder become explicit state
(`BuilderState`).  External dependencies (the ORM, `import_helper`,
`base_block`, `requests`) are modelled by structures carrying exactly the
interface the excerpted code uses.
-/

/- ===================== CSV converters (ggrc/converters/base.py) ============ -/

/-- Python exceptions raised / caught by the converter code: `export_csv_data`
catches `ValueError`, which `max([])` raises. -/
inductive PyError
  | valueError
deriving DecidableEq, Repr

/-- Python `max` over a list of naturals: raises `ValueError` on an empty
sequence, otherwise returns the maximum. -/
def listMax (l : List Nat) : Except PyError Nat :=
  match l with
  | [] => .error .valueError
  | x :: xs => .ok (xs.foldl Nat.max x)

/-- One element of `ids_by_type`: an object query as consumed by
`ExportConverter.initialize_block_converters` (`object_name`, `ids`,
`fields`). -/
structure ObjectQuery where
  object_name : String
  ids : List Nat
  fields : List String
deriving DecidableEq, Repr, Inhabited

/-- Interface of an export block converter as consumed by
`ExportConverter.build_csv_from_row_data`: its `name`, its `block_width`, the
two header rows returned by `generate_csv_header`, and the data rows returned
by `generate_row_data` (`ggrc.converters.base_block` is outside the excerpt;
only this interface is used by `base.py`). -/
structure ExportBlock where
  name : String
  block_width : Nat
  header0 : List String
  header1 : List String
  row_data : List (List String)
deriving DecidableEq, Repr

/-- Pad a csv line with empty cells up to the table width. -/
def padTo (w : Nat) (line : List String) : List String :=
  line ++ List.replicate (w - line.length) ""

/-- Modelled from the spec: `CsvStringBuilder`
(`ggrc.converters.import_helper`, not in the excerpt) accumulates csv lines of
the fixed table width, per the spec's block-oriented CSV serialization
format. -/
structure CsvStringBuilder where
  table_width : Nat
  lines : List (List String)

/-- Modelled from the spec: appending a line pads it to the table width. -/
def CsvStringBuilder.append_line (b : CsvStringBuilder) (line : List String) :
    CsvStringBuilder :=
  { b with lines := b.lines ++ [padTo b.table_width line] }

/-- Modelled from the spec: the accumulated csv text, one comma-separated
line per appended row. -/
def CsvStringBuilder.get_csv_string (b : CsvStringBuilder) : String :=
  String.intercalate "\n" (b.lines.map (String.intercalate ",")) ++ "\n"

namespace ExportConverter

/-- `ExportConverter._get_exportable_queries`: if `exportable_queries` (a list
of indexes) is non-empty, keep exactly the `ids_by_type` entries whose index
occurs in it; otherwise return `ids_by_type` unchanged. -/
def get_exportable_queries (ids_by_type : List ObjectQuery)
    (exportable_queries : List Nat) : List ObjectQuery :=
  if !exportable_queries.isEmpty then
    (ids_by_type.enum.filter (fun p => exportable_queries.contains p.1)).map
      Prod.snd
  else
    ids_by_type

/-- `ExportConverter.initialize_block_converters`: one block converter per
exportable query.  Construction of the individual block converter
(`ExportBlockConverter` / `SnapshotBlockConverter`, outside the excerpt) is
abstracted by `conv`. -/
def initialize_block_converters (conv : ObjectQuery → ExportBlock)
    (ids_by_type : List ObjectQuery) (exportable_queries : List Nat) :
    List ExportBlock :=
  (get_exportable_queries ids_by_type exportable_queries).map conv

/-- `ExportConverter.build_csv_from_row_data`: table width is one plus the
maximum block width (`max` raising `ValueError` on no blocks); per block the
two header lines get `"Object type"` and the block name as first cell, data
rows get an empty first cell, and two empty lines close the block. -/
def build_csv_from_row_data (block_converters : List ExportBlock) :
    Except PyError String := do
  let mx ← listMax (block_converters.map (fun c => c.block_width))
  let table_width := mx + 1
  let builder : CsvStringBuilder := ⟨table_width, []⟩
  let builder := block_converters.foldl (fun builder blk =>
    let builder := builder.append_line ("Object type" :: blk.header0)
    let builder := builder.append_line (blk.name :: blk.header1)
    let builder := blk.row_data.foldl
      (fun b line => b.append_line ("" :: line)) builder
    let builder := builder.append_line []
    builder.append_line []) builder
  return builder.get_csv_string

/-- `ExportConverter.export_csv_data`: builds the csv and returns `""` when a
`ValueError` is raised. -/
def export_csv_data (conv : ObjectQuery → ExportBlock)
    (ids_by_type : List ObjectQuery) (exportable_queries : List Nat) : String :=
  let block_converters :=
    initialize_block_converters conv ids_by_type exportable_queries
  match build_csv_from_row_data block_converters with
  | .ok s => s
  | .error .valueError => ""

/-- Description of one exported block, written from the spec's words for
comparison with `build_csv_from_row_data`: a header line beginning with
`"Object type"`, a line beginning with the block's object name, one line per
data row with an empty first cell, then two empty lines, all padded to the
table width. -/
def specBlockSegment (w : Nat) (blk : ExportBlock) : List (List String) :=
  padTo w ("Object type" :: blk.header0) ::
    padTo w (blk.name :: blk.header1) ::
      (blk.row_data.map (fun r => padTo w ("" :: r)) ++
        [List.replicate w "", List.replicate w ""])

end ExportConverter

/-- Modelled from the spec: one element of the output of `split_blocks`
(`ggrc.converters.import_helper`, not in the excerpt) — a contiguous slice of
CSV rows (`data`), with the block's `offset` and the raw csv lines of the
block (`csv_lines`). -/
structure SplitBlock where
  offset : Nat
  data : List (List String)
  csv_lines : List (List String)
deriving DecidableEq, Repr

/-- Modelled from the spec: `extract_relevant_data`
(`ggrc.converters.import_helper`, not in the excerpt) separates the two
header lines of a block from its data rows. -/
def extract_relevant_data (data : List (List String)) :
    List (List String) × List (List String) :=
  (data.take 2, data.drop 2)

/-- Interface of `ImportBlockConverter` (`ggrc.converters.base_block`,
outside the excerpt): the constructor arguments passed by
`ImportConverter.initialize_block_converters`.  The looked-up object class is
kept by name (`none` when the class name is not a registered exportable). -/
structure ImportBlockConverter where
  object_class : Option String
  rows : List (List String)
  raw_headers : List (List String)
  offset : Nat
  class_name : String
  csv_lines : List (List String)
deriving DecidableEq, Repr

namespace ImportConverter

/-- `ImportConverter.initialize_block_converters`: for each block produced by
`split_blocks`, the class name is the stripped, lowercased first cell of the
block's second line, the object class is its lookup among the registered
exportables, and the first two (header) csv lines are skipped. -/
def initialize_block_converters (exportable : String → Option String)
    (blocks : List SplitBlock) : List ImportBlockConverter :=
  blocks.map (fun b =>
    let class_name := ((b.data.getD 1 []).getD 0 "").trim.toLower
    let object_class := exportable class_name
    let hr := extract_relevant_data b.data
    { object_class := object_class
      rows := hr.2
      raw_headers := hr.1
      offset := b.offset
      class_name := class_name
      csv_lines := b.csv_lines.drop 2 })

end ImportConverter

/- ============ Calendar event builder (ggrc/gcalendar/...) ================= -/

/-- Statuses of `CycleTaskGroupObjectTask`. -/
inductive CycleTaskStatus
  | Assigned
  | InProgress
  | Finished
  | Verified
  | Declined
  | Deprecated
deriving DecidableEq, Repr

/-- The fields of a `CycleTaskGroupObjectTask` read by the calendar event
builder.  Dates are abstracted as naturals; the derived ORM properties
(`is_verification_needed`, `is_in_history`, `is_overdue`,
`workflow.workflow_archived`) and the ACL lookup
(`get_person_ids_for_rolename`) live outside the excerpt and are carried as
fields. -/
structure CycleTaskGroupObjectTask where
  id : Nat
  end_date : Nat
  title : String
  status : CycleTaskStatus
  is_verification_needed : Bool
  is_in_history : Bool
  is_overdue : Bool
  workflow_archived : Bool
  person_ids_for_rolename : String → List Nat

/-- The fields of a `CalendarEvent` set by the builder. -/
structure CalendarEvent where
  id : Nat
  due_date : Nat
  attendee_id : Nat
  title : String
  modified_by_id : Nat
deriving DecidableEq, Repr

/-- State touched by `CalendarEventBuilder`: the calendar events and the
`CalendarEvent`/`CycleTaskGroupObjectTask` relationship rows of the database
session (a relationship is the pair of its source task id and destination
event id), the builder's two mapping dictionaries, the id the next flushed
event will get, and the configured title prefix string. -/
structure BuilderState where
  events : List CalendarEvent
  rels : List (Nat × Nat)
  task_mappings : Nat → Finset Nat
  event_mappings : Nat → Finset Nat
  next_event_id : Nat
  titlePfx : String

/-- `CalendarEventBuilder.__init__`: both mapping dictionaries start empty
(`defaultdict(set)`). -/
def initialBuilderState (events : List CalendarEvent) (rels : List (Nat × Nat))
    (next_event_id : Nat) (titlePfx : String) : BuilderState :=
  { events := events
    rels := rels
    task_mappings := fun _ => ∅
    event_mappings := fun _ => ∅
    next_event_id := next_event_id
    titlePfx := titlePfx }

/-- Point update of a `defaultdict(set)`: add `v` to the set at key `k`. -/
def mapInsert (m : Nat → Finset Nat) (k v : Nat) : Nat → Finset Nat :=
  fun k' => if k' = k then insert v (m k) else m k'

/-- Point update of a `defaultdict(set)`: `discard v` from the set at `k`. -/
def mapDiscard (m : Nat → Finset Nat) (k v : Nat) : Nat → Finset Nat :=
  fun k' => if k' = k then (m k).erase v else m k'

/-- Models `utils.get_event_by_date_and_attendee` (outside the excerpt): the
first stored calendar event with the given attendee and due date. -/
def getEventByDateAndAttendee (st : BuilderState) (attendee_id due_date : Nat) :
    Option CalendarEvent :=
  st.events.find? (fun e => e.attendee_id == attendee_id &&
    e.due_date == due_date)

/-- Models `utils.get_relationship` (outside the excerpt) specialised to the
builder's calls: whether a relationship row links calendar event `left_id` to
cycle task `right_id` (the row was stored with the task as source). -/
def getRelationship (st : BuilderState) (left_id right_id : Nat) : Bool :=
  st.rels.contains (right_id, left_id)

namespace CalendarEventBuilder

/-- `CalendarEventBuilder._get_task_persons_ids_to_notify`: the set of person
ids holding the "Task Assignees" or "Task Secondary Assignees" role on the
task (a Python `set`; modelled as a duplicate-free list). -/
def get_task_persons_ids_to_notify (task : CycleTaskGroupObjectTask) :
    List Nat :=
  (([ "Task Assignees", "Task Secondary Assignees" ].map
    task.person_ids_for_rolename).flatten).dedup

/-- `CalendarEventBuilder._should_create_event_for`. -/
def should_create_event_for (task : CycleTaskGroupObjectTask) : Bool :=
  let conditions : List Bool := [
    task.status == CycleTaskStatus.Deprecated ||
      task.status == CycleTaskStatus.Verified,
    task.status == CycleTaskStatus.Finished && !task.is_verification_needed,
    task.is_in_history,
    task.is_overdue,
    task.workflow_archived
  ]
  !conditions.any id

/-- `CalendarEventBuilder._create_event_with_relationship`: add a new event
(due on the task's end date, for the given attendee) together with a
relationship whose source is the task and destination the event, and record
the pair in both mapping dictionaries. -/
def create_event_with_relationship (st : BuilderState)
    (task : CycleTaskGroupObjectTask) (person_id : Nat) : BuilderState :=
  let event : CalendarEvent :=
    { id := st.next_event_id
      due_date := task.end_date
      attendee_id := person_id
      title := st.titlePfx ++ "Your tasks are due today"
      modified_by_id := person_id }
  { st with
    events := st.events ++ [event]
    rels := st.rels ++ [(task.id, event.id)]
    next_event_id := st.next_event_id + 1
    task_mappings := mapInsert st.task_mappings task.id event.id
    event_mappings := mapInsert st.event_mappings event.id task.id }

/-- `CalendarEventBuilder._create_event_relationship`: if no relationship row
links the event and the task yet, add one (task as source) and record the
pair in both mapping dictionaries. -/
def create_event_relationship (st : BuilderState)
    (task : CycleTaskGroupObjectTask) (event : CalendarEvent) : BuilderState :=
  if getRelationship st event.id task.id then st
  else
    { st with
      rels := st.rels ++ [(task.id, event.id)]
      task_mappings := mapInsert st.task_mappings task.id event.id
      event_mappings := mapInsert st.event_mappings event.id task.id }

/-- `CalendarEventBuilder._delete_event_relationship`: if a relationship row
links the event and the task, delete it and discard the pair from both
mapping dictionaries. -/
def delete_event_relationship (st : BuilderState) (event_id task_id : Nat) :
    BuilderState :=
  if getRelationship st event_id task_id then
    { st with
      rels := st.rels.erase (task_id, event_id)
      task_mappings := mapDiscard st.task_mappings task_id event_id
      event_mappings := mapDiscard st.event_mappings event_id task_id }
  else st

/-- One iteration of the person loop of `_generate_events_for_task`: look up
an event for the person and the task's end date; create event plus
relationship when there is none, otherwise ensure the relationship and
discard the event from the pending `events_ids` set. -/
def processPerson (task : CycleTaskGroupObjectTask)
    (acc : BuilderState × Finset Nat) (person_id : Nat) :
    BuilderState × Finset Nat :=
  match getEventByDateAndAttendee acc.1 person_id task.end_date with
  | none => (create_event_with_relationship acc.1 task person_id, acc.2)
  | some event => (create_event_relationship acc.1 task event,
      acc.2.erase event.id)

/-- The person loop of `_generate_events_for_task` over a list of person
ids, as a function of the builder state and the pending event-id set. -/
def personFold (task : CycleTaskGroupObjectTask) (st : BuilderState)
    (eids : Finset Nat) (ps : List Nat) : BuilderState × Finset Nat :=
  ps.foldl (processPerson task) (st, eids)

/-- `CalendarEventBuilder._generate_events_for_task`: start from the task's
previously mapped event ids; when the task is eligible, run the person loop;
finally delete the relationship for every event id still pending (the
iteration order of the Python `set` is modelled as ascending). -/
def generate_events_for_task (st : BuilderState)
    (task : CycleTaskGroupObjectTask) : BuilderState :=
  let events_ids := st.task_mappings task.id
  if should_create_event_for task then
    let r := (get_task_persons_ids_to_notify task).foldl
      (processPerson task) (st, events_ids)
    (r.2.sort (· ≤ ·)).foldl
      (fun s e => delete_event_relationship s e task.id) r.1
  else
    (events_ids.sort (· ≤ ·)).foldl
      (fun s e => delete_event_relationship s e task.id) st

/-- Ids of the stored events found (in state `st`) for some person of `ps`
at due date `due`. -/
def confirmedFrom (st : BuilderState) (due : Nat) (ps : List Nat) :
    Finset Nat :=
  (ps.filterMap (fun p =>
    (getEventByDateAndAttendee st p due).map (fun e => e.id))).toFinset

/-- Event ids confirmed for a task in one `_generate_events_for_task` pass:
ids of the pre-existing events found for some person to notify at the task's
end date. -/
def confirmedEventIds (st : BuilderState) (task : CycleTaskGroupObjectTask) :
    Finset Nat :=
  confirmedFrom st task.end_date (get_task_persons_ids_to_notify task)

/-- The three operations of `CalendarEventBuilder` that touch the two mapping
dictionaries. -/
inductive BuilderOp
  | createWithRel (task : CycleTaskGroupObjectTask) (person_id : Nat)
  | createRel (task : CycleTaskGroupObjectTask) (event : CalendarEvent)
  | deleteRel (event_id task_id : Nat)

/-- Apply one builder operation to the state. -/
def applyOp (st : BuilderState) : BuilderOp → BuilderState
  | .createWithRel task person_id =>
      create_event_with_relationship st task person_id
  | .createRel task event => create_event_relationship st task event
  | .deleteRel event_id task_id =>
      delete_event_relationship st event_id task_id

/-- Apply a sequence of builder operations. -/
def applyOps (st : BuilderState) (ops : List BuilderOp) : BuilderState :=
  ops.foldl applyOp st

/-- The two mapping dictionaries are mutually inverse. -/
def MappingsInverse (st : BuilderState) : Prop :=
  ∀ task_id event_id,
    event_id ∈ st.task_mappings task_id ↔ task_id ∈ st.event_mappings event_id

end CalendarEventBuilder

/- ================= REST test client (lib/rest/api_client.py) ============== -/

/-- A `requests` HTTP response (opaque to the client code). -/
structure HttpResponse where
  status : Nat
  body : String
deriving DecidableEq, Repr

/-- A `requests` session as used by the client: its `get`, `post` (url and
json body) and `put` (url, json body and headers) methods. -/
structure Session where
  get : String → HttpResponse
  post : String → String → HttpResponse
  put : String → String → List (String × String) → HttpResponse

/-- The environment of `api_client`: `environment.app_url`,
`urlparse.urljoin`, `users.current_user()` and `session_pool.get_session`
(all outside the excerpt). -/
structure RestEnv where
  app_url : String
  url_join : String → String → String
  current_user : String
  session_pool : String → Session

namespace ApiClient

/-- `api_client._user_session`: the session obtained for the current user. -/
def user_session (env : RestEnv) : Session :=
  env.session_pool env.current_user

/-- `api_client.send_get`. -/
def send_get (env : RestEnv) (url : String) : HttpResponse :=
  (user_session env).get (env.url_join env.app_url url)

/-- `api_client.send_post`. -/
def send_post (env : RestEnv) (url : String) (json_body : String) :
    HttpResponse :=
  (user_session env).post (env.url_join env.app_url url) json_body

/-- `api_client.send_put`. -/
def send_put (env : RestEnv) (url : String) (json_body : String)
    (headers : List (String × String)) : HttpResponse :=
  (user_session env).put (env.url_join env.app_url url) json_body headers

end ApiClient

/- ====== Migration 4c290531e2cd: create label table (ggrc_workflows_new) === -/

/-- The sqlalchemy column types used by the migration. -/
inductive SqlType
  | string (length : Nat)
  | integer
  | datetime
deriving DecidableEq, Repr

/-- A sqlalchemy column declaration. -/
structure SqlColumn where
  name : String
  ctype : SqlType
  nullable : Bool
  primary_key : Bool
deriving DecidableEq, Repr

/-- A sqlalchemy foreign key constraint declaration. -/
structure SqlForeignKey where
  columns : List String
  refcolumns : List String
  name : String
deriving DecidableEq, Repr

/-- A table declaration. -/
structure SqlTable where
  columns : List SqlColumn
  foreign_keys : List SqlForeignKey
deriving DecidableEq, Repr

/-- An index declaration. -/
structure SqlIndex where
  name : String
  table : String
  columns : List String
deriving DecidableEq, Repr

/-- A database schema: the declared tables (in creation order) and indexes. -/
structure Schema where
  tables : List (String × SqlTable)
  indexes : List SqlIndex
deriving DecidableEq, Repr

/-- Errors of the schema operations. -/
inductive MigrationError
  | tableExists
  | noSuchTable
deriving DecidableEq, Repr

/-- `op.create_table`: fails if a table of that name exists. -/
def op_create_table (s : Schema) (name : String) (t : SqlTable) :
    Except MigrationError Schema :=
  if s.tables.any (fun nt => nt.1 == name) then .error .tableExists
  else .ok { s with tables := s.tables ++ [(name, t)] }

/-- `op.create_index`: fails if the table does not exist. -/
def op_create_index (s : Schema) (index_name table_name : String)
    (columns : List String) : Except MigrationError Schema :=
  if s.tables.any (fun nt => nt.1 == table_name) then
    .ok { s with indexes := s.indexes ++ [⟨index_name, table_name, columns⟩] }
  else .error .noSuchTable

/-- `op.drop_table`: fails if the table does not exist; dropping a table also
drops its indexes. -/
def op_drop_table (s : Schema) (name : String) : Except MigrationError Schema :=
  if s.tables.any (fun nt => nt.1 == name) then
    .ok { tables := s.tables.filter (fun nt => nt.1 ≠ name)
          indexes := s.indexes.filter (fun i => i.table ≠ name) }
  else .error .noSuchTable

namespace LabelMigration

/-- `TABLE_NAME = 'labels'`. -/
def TABLE_NAME : String := "labels"

/-- The `labels` table as declared by `upgrade`. -/
def labelsTable : SqlTable :=
  { columns := [
      ⟨"title", .string 250, false, false⟩,
      ⟨"modified_by_id", .integer, true, false⟩,
      ⟨"created_at", .datetime, false, false⟩,
      ⟨"updated_at", .datetime, false, false⟩,
      ⟨"context_id", .integer, true, false⟩,
      ⟨"id", .integer, true, true⟩]
    foreign_keys := [⟨["context_id"], ["contexts.id"], "fk_label_context_id"⟩] }

/-- `upgrade`: create the `labels` table and its two indexes. -/
def upgrade (s : Schema) : Except MigrationError Schema := do
  let s ← op_create_table s TABLE_NAME labelsTable
  let s ← op_create_index s ("ix_" ++ TABLE_NAME ++ "_updated_at") TABLE_NAME
    ["updated_at"]
  op_create_index s ("fk_" ++ TABLE_NAME ++ "_contexts") TABLE_NAME
    ["context_id"]

/-- `downgrade`: drop the `labels` table. -/
def downgrade (s : Schema) : Except MigrationError Schema :=
  op_drop_table s TABLE_NAME

end LabelMigration

/- ============================== Theorems ================================= -/

/-- C1: `_should_create_event_for` returns `false` iff the task's status is
deprecated or verified, or its status is finished and it does not need
verification, or it is in history, or it is overdue, or its workflow is
archived; otherwise it returns `true`. -/
theorem should_create_event_for_false_iff (task : CycleTaskGroupObjectTask) :
    CalendarEventBuilder.should_create_event_for task = false ↔
      (task.status = CycleTaskStatus.Deprecated ∨
       task.status = CycleTaskStatus.Verified ∨
       (task.status = CycleTaskStatus.Finished ∧
         task.is_verification_needed = false) ∨
       task.is_in_history = true ∨
       task.is_overdue = true ∨
       task.workflow_archived = true) := by
  rcases task with ⟨i, ed, tt, status, ivn, ih, io, wa, f⟩
  cases status <;> cases ivn <;> cases ih <;> cases io <;> cases wa <;>
    simp [CalendarEventBuilder.should_create_event_for]

/-- C6: `send_get`, `send_post` and `send_put` join `app_url` with the given
url, invoke the corresponding method (with the given json body for POST/PUT
and the given headers for PUT) on the session obtained for the current user,
and return that session's response unchanged. -/
theorem api_client_send_spec (env : RestEnv) (url json_body : String)
    (headers : List (String × String)) :
    ApiClient.send_get env url =
      (env.session_pool env.current_user).get
        (env.url_join env.app_url url) ∧
    ApiClient.send_post env url json_body =
      (env.session_pool env.current_user).post
        (env.url_join env.app_url url) json_body ∧
    ApiClient.send_put env url json_body headers =
      (env.session_pool env.current_user).put
        (env.url_join env.app_url url) json_body headers :=
  ⟨rfl, rfl, rfl⟩

/-- Filtering an enumeration by a predicate on the indexes and keeping the
values is the same as indexing by the filtered index range. -/
theorem enumFrom_filter_map_getD {α : Type} (P : Nat → Bool) (d : α) :
    ∀ (ids : List α) (n : Nat),
      ((List.enumFrom n ids).filter (fun p => P p.1)).map Prod.snd
        = ((List.range' n ids.length).filter P).map
            (fun i => ids.getD (i - n) d) := by
  intro ids
  induction ids with
  | nil => intro n; simp
  | cons a tl ih =>
      intro n
      have hcongr : ∀ L : List Nat, (∀ i ∈ L, n + 1 ≤ i) →
          L.map (fun i => tl.getD (i - (n + 1)) d)
            = L.map (fun i => (a :: tl).getD (i - n) d) := by
        intro L hL
        refine List.map_congr_left ?_
        intro i hi
        have h1 : i - n = (i - (n + 1)) + 1 := by
          have := hL i hi
          omega
        rw [h1, List.getD_cons_succ]
      have hrange : ∀ i ∈ (List.range' (n + 1) tl.length).filter P,
          n + 1 ≤ i := by
        intro i hi
        exact (List.mem_range'_1.mp (List.mem_of_mem_filter hi)).1
      simp only [List.enumFrom, List.length_cons, List.range']
      cases hP : P n with
      | true =>
          simp only [List.filter_cons, hP, if_pos, List.map_cons, ih (n + 1),
            Nat.sub_self, List.getD_cons_zero]
          exact congrArg (List.cons a) (hcongr _ hrange)
      | false =>
          simp only [List.filter_cons, hP, Bool.false_eq_true, if_neg,
            not_false_iff, ih (n + 1)]
          exact hcongr _ hrange

/-- C10: `_get_exportable_queries` returns `ids_by_type` unchanged when
`exportable_queries` is empty, and otherwise exactly the elements of
`ids_by_type` whose positions occur in `exportable_queries`, in their
original order. -/
theorem get_exportable_queries_spec (ids_by_type : List ObjectQuery)
    (exportable_queries : List Nat) :
    (exportable_queries = [] →
      ExportConverter.get_exportable_queries ids_by_type exportable_queries
        = ids_by_type) ∧
    (exportable_queries ≠ [] →
      ExportConverter.get_exportable_queries ids_by_type exportable_queries
        = ((List.range ids_by_type.length).filter
            (fun i => i ∈ exportable_queries)).map
            (fun i => ids_by_type.getD i default)) := by
  constructor
  · intro h
    simp [ExportConverter.get_exportable_queries, h]
  · intro h
    have hne : exportable_queries.isEmpty = false := by
      cases exportable_queries with
      | nil => exact absurd rfl h
      | cons x xs => rfl
    have hP : (fun p : Nat × ObjectQuery => exportable_queries.contains p.1)
        = fun p : Nat × ObjectQuery => decide (p.1 ∈ exportable_queries) := by
      funext p
      simp [List.elem_iff]
    rw [ExportConverter.get_exportable_queries, hne]
    simp only [Bool.not_false, if_pos, List.enum, hP]
    rw [enumFrom_filter_map_getD (fun i => decide (i ∈ exportable_queries))
      default ids_by_type 0, List.range_eq_range']
    simp

/-- Witness for C10 at a concrete input. -/
theorem get_exportable_queries_spec_witness :
    (([2, 0] : List Nat) ≠ []) ∧
    ExportConverter.get_exportable_queries
        [⟨"Program", [1], []⟩, ⟨"Audit", [2], []⟩, ⟨"Control", [], []⟩]
        [2, 0]
      = ((List.range
            ([⟨"Program", [1], []⟩, ⟨"Audit", [2], []⟩,
              (⟨"Control", [], []⟩ : ObjectQuery)] : List ObjectQuery).length).filter
          (fun i => i ∈ [2, 0])).map
          (fun i => ([⟨"Program", [1], []⟩, ⟨"Audit", [2], []⟩,
            (⟨"Control", [], []⟩ : ObjectQuery)] : List ObjectQuery).getD i
              default) :=
  ⟨by decide, (get_exportable_queries_spec _ _).2 (by decide)⟩

/-- C8: when the query list yields no block converters, taking the maximum
block width raises `ValueError`, `export_csv_data` catches it and returns the
empty string. -/
theorem export_csv_data_empty (conv : ObjectQuery → ExportBlock)
    (ids_by_type : List ObjectQuery) (exportable_queries : List Nat)
    (h : ExportConverter.get_exportable_queries ids_by_type exportable_queries
      = []) :
    ExportConverter.build_csv_from_row_data
        (ExportConverter.initialize_block_converters conv ids_by_type
          exportable_queries)
      = .error PyError.valueError ∧
    ExportConverter.export_csv_data conv ids_by_type exportable_queries
      = "" := by
  have hb : ExportConverter.initialize_block_converters conv ids_by_type
      exportable_queries = [] := by
    simp [ExportConverter.initialize_block_converters, h]
  constructor
  · rw [hb]
    rfl
  · rw [ExportConverter.export_csv_data, hb]
    rfl

/-- Witness for C8: an export request with an empty `ids_by_type`. -/
theorem export_csv_data_empty_witness :
    ExportConverter.get_exportable_queries [] [] = [] ∧
    (ExportConverter.build_csv_from_row_data
        (ExportConverter.initialize_block_converters
          (fun _ => ⟨"Program", 0, [], [], []⟩) [] [])
      = .error PyError.valueError ∧
    ExportConverter.export_csv_data (fun _ => ⟨"Program", 0, [], [], []⟩) [] []
      = "") :=
  ⟨rfl, export_csv_data_empty (fun _ => ⟨"Program", 0, [], [], []⟩) [] [] rfl⟩

/-- Bind of a successful `Except` computation reduces to the continuation. -/
theorem bind_ok_eq {ε α β : Type} (a : α) (f : α → Except ε β) :
    (Bind.bind (Except.ok a) f : Except ε β) = f a := rfl

/-- C7: `upgrade` creates exactly the `labels` table (columns `title`,
`modified_by_id`, `created_at`, `updated_at`, `context_id`, `id`; primary key
on `id`; foreign key from `context_id` to `contexts.id`) and its two indexes,
and `downgrade` drops exactly that table, so `downgrade` after `upgrade`
restores the schema that existed before `upgrade`. -/
theorem label_migration_roundtrip (s : Schema)
    (h1 : ∀ nt ∈ s.tables, nt.1 ≠ "labels")
    (h2 : ∀ i ∈ s.indexes, i.table ≠ "labels") :
    ∃ s', LabelMigration.upgrade s = .ok s' ∧
      s'.tables = s.tables ++ [("labels", LabelMigration.labelsTable)] ∧
      s'.indexes = s.indexes ++
        [⟨"ix_labels_updated_at", "labels", ["updated_at"]⟩,
         ⟨"fk_labels_contexts", "labels", ["context_id"]⟩] ∧
      LabelMigration.labelsTable.columns.map (fun c => c.name) =
        ["title", "modified_by_id", "created_at", "updated_at", "context_id",
          "id"] ∧
      (LabelMigration.labelsTable.columns.filter
        (fun c => c.primary_key)).map (fun c => c.name) = ["id"] ∧
      LabelMigration.labelsTable.foreign_keys =
        [⟨["context_id"], ["contexts.id"], "fk_label_context_id"⟩] ∧
      LabelMigration.downgrade s' = .ok s := by
  rcases s with ⟨tables, indexes⟩
  have hno : tables.any (fun nt => nt.1 == "labels") = false := by
    rw [List.any_eq_false]
    intro nt hnt
    simpa using h1 nt hnt
  have h_ct : op_create_table ⟨tables, indexes⟩ "labels"
      LabelMigration.labelsTable
      = .ok ⟨tables ++ [("labels", LabelMigration.labelsTable)], indexes⟩ := by
    simp [op_create_table, hno]
  have h_ix1 : op_create_index
      ⟨tables ++ [("labels", LabelMigration.labelsTable)], indexes⟩
      "ix_labels_updated_at" "labels" ["updated_at"]
      = .ok ⟨tables ++ [("labels", LabelMigration.labelsTable)],
          indexes ++ [⟨"ix_labels_updated_at", "labels", ["updated_at"]⟩]⟩ := by
    simp [op_create_index, List.any_append]
  have h_ix2 : op_create_index
      ⟨tables ++ [("labels", LabelMigration.labelsTable)],
        indexes ++ [⟨"ix_labels_updated_at", "labels", ["updated_at"]⟩]⟩
      "fk_labels_contexts" "labels" ["context_id"]
      = .ok ⟨tables ++ [("labels", LabelMigration.labelsTable)],
          indexes ++ [⟨"ix_labels_updated_at", "labels", ["updated_at"]⟩,
            ⟨"fk_labels_contexts", "labels", ["context_id"]⟩]⟩ := by
    simp [op_create_index, List.any_append]
  refine ⟨⟨tables ++ [("labels", LabelMigration.labelsTable)],
    indexes ++ [⟨"ix_labels_updated_at", "labels", ["updated_at"]⟩,
      ⟨"fk_labels_contexts", "labels", ["context_id"]⟩]⟩, ?_, rfl, rfl,
    by decide, by decide, rfl, ?_⟩
  · unfold LabelMigration.upgrade
    rw [show ("ix_" ++ LabelMigration.TABLE_NAME ++ "_updated_at")
        = "ix_labels_updated_at" from rfl,
      show ("fk_" ++ LabelMigration.TABLE_NAME ++ "_contexts")
        = "fk_labels_contexts" from rfl,
      show LabelMigration.TABLE_NAME = "labels" from rfl]
    simp only [h_ct, bind_ok_eq, h_ix1, h_ix2]
  · have hself_t : tables.filter (fun nt => nt.1 ≠ "labels") = tables := by
      rw [List.filter_eq_self]
      intro a ha
      simpa using h1 a ha
    have hsing_t : ([("labels", LabelMigration.labelsTable)] :
        List (String × SqlTable)).filter (fun nt => nt.1 ≠ "labels") = [] := by
      decide
    have hft : (tables ++ [("labels", LabelMigration.labelsTable)]).filter
        (fun nt => nt.1 ≠ "labels") = tables := by
      rw [List.filter_append, hself_t, hsing_t, List.append_nil]
    have hself_i : indexes.filter (fun i => i.table ≠ "labels") = indexes := by
      rw [List.filter_eq_self]
      intro a ha
      simpa using h2 a ha
    have hsing_i : ([(⟨"ix_labels_updated_at", "labels",
        ["updated_at"]⟩ : SqlIndex),
        ⟨"fk_labels_contexts", "labels", ["context_id"]⟩] :
        List SqlIndex).filter (fun i => i.table ≠ "labels") = [] := by
      decide
    have hfi : (indexes ++
        [(⟨"ix_labels_updated_at", "labels", ["updated_at"]⟩ : SqlIndex),
          ⟨"fk_labels_contexts", "labels", ["context_id"]⟩]).filter
        (fun i => i.table ≠ "labels") = indexes := by
      rw [List.filter_append, hself_i, hsing_i, List.append_nil]
    have hany : ((tables ++ [("labels", LabelMigration.labelsTable)]).any
        (fun nt => nt.1 == "labels")) = true := by
      simp [List.any_append]
    unfold LabelMigration.downgrade
    rw [show LabelMigration.TABLE_NAME = "labels" from rfl]
    simp only [op_drop_table, hany, if_true, hft, hfi]

/-- Witness for C7: the migration round-trips on a schema holding only the
`contexts` table. -/
theorem label_migration_roundtrip_witness :
    (∀ nt ∈ ([("contexts",
        (⟨[⟨"id", SqlType.integer, false, true⟩], []⟩ : SqlTable))] :
        List (String × SqlTable)), nt.1 ≠ "labels") ∧
    (∀ i ∈ ([] : List SqlIndex), i.table ≠ "labels") ∧
    (∃ s', LabelMigration.upgrade
        ⟨[("contexts", ⟨[⟨"id", SqlType.integer, false, true⟩], []⟩)], []⟩
        = .ok s' ∧
      s'.tables = [("contexts", ⟨[⟨"id", SqlType.integer, false, true⟩], []⟩)]
        ++ [("labels", LabelMigration.labelsTable)] ∧
      s'.indexes = ([] : List SqlIndex) ++
        [⟨"ix_labels_updated_at", "labels", ["updated_at"]⟩,
         ⟨"fk_labels_contexts", "labels", ["context_id"]⟩] ∧
      LabelMigration.labelsTable.columns.map (fun c => c.name) =
        ["title", "modified_by_id", "created_at", "updated_at", "context_id",
          "id"] ∧
      (LabelMigration.labelsTable.columns.filter
        (fun c => c.primary_key)).map (fun c => c.name) = ["id"] ∧
      LabelMigration.labelsTable.foreign_keys =
        [⟨["context_id"], ["contexts.id"], "fk_label_context_id"⟩] ∧
      LabelMigration.downgrade s'
        = .ok ⟨[("contexts", ⟨[⟨"id", SqlType.integer, false, true⟩], []⟩)],
            []⟩) :=
  ⟨by decide, by decide,
    label_migration_roundtrip _ (by decide) (by decide)⟩

/-- C4: `ImportConverter.initialize_block_converters` yields one block
converter per block returned by `split_blocks`; each converter's class name
is the stripped, lowercased first cell of the block's second line, its object
class is that name's lookup among the registered exportables, and the two
header lines of the block are excluded from the rows and csv lines handed to
the converter. -/
theorem import_initialize_block_converters_spec
    (exportable : String → Option String) (blocks : List SplitBlock)
    (h : ∀ b ∈ blocks, 2 ≤ b.data.length ∧ b.data.getD 1 [] ≠ []) :
    (ImportConverter.initialize_block_converters exportable blocks).length
      = blocks.length ∧
    ∀ (i : Nat) (c : ImportBlockConverter),
      (ImportConverter.initialize_block_converters exportable blocks)[i]?
        = some c →
      ∃ b : SplitBlock, blocks[i]? = some b ∧
        ∃ (firstLine : List String) (cell0 : String) (cellRest : List String)
          (rest : List (List String)),
          b.data = firstLine :: (cell0 :: cellRest) :: rest ∧
          c.class_name = cell0.trim.toLower ∧
          c.object_class = exportable (cell0.trim.toLower) ∧
          c.raw_headers = [firstLine, cell0 :: cellRest] ∧
          c.rows = rest ∧
          c.offset = b.offset ∧
          c.csv_lines = b.csv_lines.drop 2 := by
  constructor
  · simp [ImportConverter.initialize_block_converters]
  · intro i c hc
    rw [ImportConverter.initialize_block_converters] at hc
    rw [List.getElem?_map] at hc
    cases hb : blocks[i]? with
    | none => rw [hb] at hc; simp at hc
    | some b =>
        rw [hb] at hc
        simp only [Option.map_some'] at hc
        have hmem : b ∈ blocks := List.getElem?_mem hb
        obtain ⟨hlen, hcell⟩ := h b hmem
        obtain ⟨firstLine, data1, rest, hdata⟩ :
            ∃ x y zs, b.data = x :: y :: zs := by
          cases hd : b.data with
          | nil => rw [hd] at hlen; simp at hlen
          | cons x t =>
              cases ht : t with
              | nil => rw [hd, ht] at hlen; simp at hlen
              | cons y zs => exact ⟨x, y, zs, by simp [hd, ht]⟩
        obtain ⟨cell0, cellRest, hcellr⟩ : ∃ u us, data1 = u :: us := by
          cases hq : data1 with
          | nil =>
              rw [hdata, hq] at hcell
              simp at hcell
          | cons u us => exact ⟨u, us, rfl⟩
        subst hcellr
        obtain rfl := Option.some.inj hc
        refine ⟨b, rfl, firstLine, cell0, cellRest, rest, hdata, ?_⟩
        simp [hdata, extract_relevant_data]

/-- Witness for C4 at a one-block import. -/
theorem import_initialize_block_converters_witness :
    (∀ b ∈ ([⟨3, [["Object type", ""], [" Program ", ""], ["x", "y"]],
        [["Object type", ""], [" Program ", ""], ["x", "y"]]⟩] :
        List SplitBlock), 2 ≤ b.data.length ∧ b.data.getD 1 [] ≠ []) ∧
    ((ImportConverter.initialize_block_converters
        (fun s => if s = "program" then some "Program" else none)
        [⟨3, [["Object type", ""], [" Program ", ""], ["x", "y"]],
          [["Object type", ""], [" Program ", ""], ["x", "y"]]⟩]).length
      = ([⟨3, [["Object type", ""], [" Program ", ""], ["x", "y"]],
          [["Object type", ""], [" Program ", ""], ["x", "y"]]⟩] :
          List SplitBlock).length ∧
    ∀ (i : Nat) (c : ImportBlockConverter),
      (ImportConverter.initialize_block_converters
        (fun s => if s = "program" then some "Program" else none)
        [⟨3, [["Object type", ""], [" Program ", ""], ["x", "y"]],
          [["Object type", ""], [" Program ", ""], ["x", "y"]]⟩])[i]?
        = some c →
      ∃ b : SplitBlock,
        ([⟨3, [["Object type", ""], [" Program ", ""], ["x", "y"]],
          [["Object type", ""], [" Program ", ""], ["x", "y"]]⟩] :
          List SplitBlock)[i]? = some b ∧
        ∃ (firstLine cell0 : _) (cellRest : List String)
          (rest : List (List String)),
          b.data = firstLine :: (cell0 :: cellRest) :: rest ∧
          c.class_name = cell0.trim.toLower ∧
          c.object_class = (fun s : String =>
            if s = "program" then some "Program" else none)
            (cell0.trim.toLower) ∧
          c.raw_headers = [firstLine, cell0 :: cellRest] ∧
          c.rows = rest ∧
          c.offset = b.offset ∧
          c.csv_lines = b.csv_lines.drop 2) :=
  ⟨by decide, import_initialize_block_converters_spec _ _ (by decide)⟩

/-- Facts about Python `max` folded over a list: the fold dominates the seed
and every element, and equals the seed or some element. -/
theorem foldl_max_facts :
    ∀ (xs : List Nat) (x : Nat),
      x ≤ xs.foldl Nat.max x ∧ (∀ y ∈ xs, y ≤ xs.foldl Nat.max x) ∧
      (xs.foldl Nat.max x = x ∨ xs.foldl Nat.max x ∈ xs) := by
  intro xs
  induction xs with
  | nil => intro x; simp
  | cons a t ih =>
      intro x
      obtain ⟨h1, h2, h3⟩ := ih (Nat.max x a)
      have hfold : (a :: t).foldl Nat.max x = t.foldl Nat.max (Nat.max x a) :=
        rfl
      refine ⟨?_, ?_, ?_⟩
      · rw [hfold]
        exact le_trans (Nat.le_max_left x a) h1
      · intro y hy
        rw [hfold]
        rcases List.mem_cons.mp hy with hy | hy
        · rw [hy]
          exact le_trans (Nat.le_max_right x a) h1
        · exact h2 y hy
      · rw [hfold]
        rcases h3 with h3 | h3
        · have hcase : Nat.max x a = x ∨ Nat.max x a = a := by
            rcases Nat.le_total x a with hxa | hax
            · exact Or.inr (Nat.max_eq_right hxa)
            · exact Or.inl (Nat.max_eq_left hax)
          rcases hcase with hc | hc
          · exact Or.inl (h3.trans hc)
          · refine Or.inr ?_
            rw [h3, hc]
            exact List.mem_cons_self a t
        · exact Or.inr (List.mem_cons_of_mem a h3)

/-- `listMax` on a non-empty list succeeds and returns the maximum. -/
theorem listMax_spec (l : List Nat) (h : l ≠ []) :
    ∃ mx, listMax l = .ok mx ∧ (∀ x ∈ l, x ≤ mx) ∧ mx ∈ l := by
  cases l with
  | nil => exact absurd rfl h
  | cons a t =>
      obtain ⟨h1, h2, h3⟩ := foldl_max_facts t a
      refine ⟨t.foldl Nat.max a, rfl, ?_, ?_⟩
      · intro x hx
        rcases List.mem_cons.mp hx with hx | hx
        · rw [hx]
          exact h1
        · exact h2 x hx
      · rcases h3 with h3 | h3
        · rw [h3]
          exact List.mem_cons_self a t
        · exact List.mem_cons_of_mem a h3

/-- Padding a line that fits in the table width yields exactly the table
width. -/
theorem padTo_length (w : Nat) (l : List String) (h : l.length ≤ w) :
    (padTo w l).length = w := by
  simp only [padTo, List.length_append, List.length_replicate]
  omega

/-- Padding the empty line gives a line of empty cells. -/
theorem padTo_nil (w : Nat) : padTo w [] = List.replicate w "" := by
  simp [padTo]

/-- The row loop of `build_csv_from_row_data` appends one padded line with an
empty first cell per data row. -/
theorem csv_row_fold (rows : List (List String)) :
    ∀ b : CsvStringBuilder,
      (rows.foldl (fun b line => b.append_line ("" :: line)) b).table_width
        = b.table_width ∧
      (rows.foldl (fun b line => b.append_line ("" :: line)) b).lines
        = b.lines ++ rows.map (fun r => padTo b.table_width ("" :: r)) := by
  induction rows with
  | nil => intro b; simp
  | cons r t ih =>
      intro b
      obtain ⟨h1, h2⟩ := ih (b.append_line ("" :: r))
      constructor
      · rw [List.foldl_cons, h1]
        rfl
      · rw [List.foldl_cons, h2]
        simp [CsvStringBuilder.append_line]

/-- The block loop of `build_csv_from_row_data` appends exactly the
spec-side block segments, keeping the table width. -/
theorem csv_block_fold (blocks : List ExportBlock) :
    ∀ b : CsvStringBuilder,
      (blocks.foldl (fun builder blk =>
        let builder := builder.append_line ("Object type" :: blk.header0)
        let builder := builder.append_line (blk.name :: blk.header1)
        let builder := blk.row_data.foldl
          (fun b line => b.append_line ("" :: line)) builder
        let builder := builder.append_line []
        builder.append_line []) b).table_width = b.table_width ∧
      (blocks.foldl (fun builder blk =>
        let builder := builder.append_line ("Object type" :: blk.header0)
        let builder := builder.append_line (blk.name :: blk.header1)
        let builder := blk.row_data.foldl
          (fun b line => b.append_line ("" :: line)) builder
        let builder := builder.append_line []
        builder.append_line []) b).lines
        = b.lines ++ blocks.flatMap
            (ExportConverter.specBlockSegment b.table_width) := by
  induction blocks with
  | nil => intro b; simp
  | cons blk t ih =>
      intro b
      set b2 := (b.append_line ("Object type" :: blk.header0)).append_line
        (blk.name :: blk.header1) with hb2
      obtain ⟨hr1, hr2⟩ := csv_row_fold blk.row_data b2
      set b3 := blk.row_data.foldl
        (fun b line => b.append_line ("" :: line)) b2 with hb3
      set b4 := (b3.append_line []).append_line [] with hb4
      obtain ⟨h1, h2⟩ := ih b4
      have hw2 : b2.table_width = b.table_width := rfl
      have hw4 : b4.table_width = b.table_width := by
        rw [hb4]
        show b3.table_width = b.table_width
        rw [hr1, hw2]
      have hl4 : b4.lines = b.lines ++
          ExportConverter.specBlockSegment b.table_width blk := by
        rw [hb4]
        show b3.lines ++ [padTo b3.table_width []] ++ [padTo b3.table_width []]
          = _
        rw [hr1, hw2] at *
        rw [hr2]
        simp only [hb2, CsvStringBuilder.append_line, hw2]
        simp [ExportConverter.specBlockSegment, padTo_nil,
          List.append_assoc]
      constructor
      · rw [List.foldl_cons]
        show (t.foldl _ b4).table_width = b.table_width
        rw [h1, hw4]
      · rw [List.foldl_cons]
        show (t.foldl _ b4).lines = _
        rw [h2, hw4, hl4, List.flatMap_cons, List.append_assoc]

/-- A csv builder with known width and lines is that literal builder. -/
theorem builder_eta (bb : CsvStringBuilder) (w : Nat) (L : List (List String))
    (h1 : bb.table_width = w) (h2 : bb.lines = L) : bb = ⟨w, L⟩ := by
  cases bb
  simp only at h1 h2
  rw [h1, h2]

/-- With a successful width maximum, `build_csv_from_row_data` returns the
csv string of the block fold. -/
theorem build_csv_eq_fold (blocks : List ExportBlock) (mx : Nat)
    (hmx : listMax (blocks.map (fun c => c.block_width)) = .ok mx) :
    ExportConverter.build_csv_from_row_data blocks
      = .ok (CsvStringBuilder.get_csv_string (blocks.foldl (fun builder blk =>
          let builder := builder.append_line ("Object type" :: blk.header0)
          let builder := builder.append_line (blk.name :: blk.header1)
          let builder := blk.row_data.foldl
            (fun b line => b.append_line ("" :: line)) builder
          let builder := builder.append_line []
          builder.append_line []) ⟨mx + 1, []⟩)) := by
  unfold ExportConverter.build_csv_from_row_data
  rw [hmx]
  rfl

/-- C3: on a non-empty list of block converters (whose headers and rows fit
their block width), the exported csv is block-oriented: per block, in order,
a header line beginning with "Object type", a line beginning with the block's
object name, one line per data row with an empty first cell, then two empty
lines, every line padded to one plus the maximum block width. -/
theorem build_csv_from_row_data_spec (blocks : List ExportBlock)
    (hne : blocks ≠ [])
    (hwf : ∀ blk ∈ blocks, blk.header0.length ≤ blk.block_width ∧
      blk.header1.length ≤ blk.block_width ∧
      ∀ r ∈ blk.row_data, r.length ≤ blk.block_width) :
    ∃ (mx : Nat) (L : List (List String)),
      listMax (blocks.map (fun c => c.block_width)) = .ok mx ∧
      (∀ blk ∈ blocks, blk.block_width ≤ mx) ∧
      (∃ blk ∈ blocks, blk.block_width = mx) ∧
      ExportConverter.build_csv_from_row_data blocks
        = .ok (CsvStringBuilder.get_csv_string ⟨mx + 1, L⟩) ∧
      L = blocks.flatMap (ExportConverter.specBlockSegment (mx + 1)) ∧
      (∀ line ∈ L, line.length = mx + 1) := by
  have hmapne : blocks.map (fun c => c.block_width) ≠ [] := by
    cases blocks with
    | nil => exact absurd rfl hne
    | cons a t => simp
  obtain ⟨mx, hmx, hle, hmem⟩ := listMax_spec _ hmapne
  have hble : ∀ blk ∈ blocks, blk.block_width ≤ mx := by
    intro blk hblk
    exact hle _ (List.mem_map_of_mem _ hblk)
  refine ⟨mx, blocks.flatMap (ExportConverter.specBlockSegment (mx + 1)),
    hmx, hble, ?_, ?_, rfl, ?_⟩
  · obtain ⟨blk, hblk, hbw⟩ := List.mem_map.mp hmem
    exact ⟨blk, hblk, hbw⟩
  · obtain ⟨hwid, hlines⟩ := csv_block_fold blocks ⟨mx + 1, []⟩
    have hlines' : (blocks.foldl (fun builder blk =>
        let builder := builder.append_line ("Object type" :: blk.header0)
        let builder := builder.append_line (blk.name :: blk.header1)
        let builder := blk.row_data.foldl
          (fun b line => b.append_line ("" :: line)) builder
        let builder := builder.append_line []
        builder.append_line []) (⟨mx + 1, []⟩ : CsvStringBuilder)).lines
        = blocks.flatMap (ExportConverter.specBlockSegment (mx + 1)) := by
      simpa using hlines
    have heq := builder_eta _ (mx + 1)
      (blocks.flatMap (ExportConverter.specBlockSegment (mx + 1)))
      hwid hlines'
    rw [build_csv_eq_fold blocks mx hmx, heq]
  · intro line hline
    obtain ⟨blk, hblk, hseg⟩ := List.mem_flatMap.mp hline
    obtain ⟨hh0, hh1, hrows⟩ := hwf blk hblk
    have hw : blk.block_width ≤ mx := hble blk hblk
    rw [ExportConverter.specBlockSegment] at hseg
    rcases List.mem_cons.mp hseg with h | hseg
    · rw [h]
      refine padTo_length _ _ ?_
      simp only [List.length_cons]
      omega
    rcases List.mem_cons.mp hseg with h | hseg
    · rw [h]
      refine padTo_length _ _ ?_
      simp only [List.length_cons]
      omega
    rcases List.mem_append.mp hseg with h | h
    · obtain ⟨r, hr, hrl⟩ := List.mem_map.mp h
      rw [← hrl]
      refine padTo_length _ _ ?_
      have := hrows r hr
      simp only [List.length_cons]
      omega
    · rcases List.mem_cons.mp h with h | h
      · rw [h]
        simp
      · rcases List.mem_cons.mp h with h | h
        · rw [h]
          simp
        · simp at h

/-- Witness for C3 at a one-block export. -/
theorem build_csv_from_row_data_spec_witness :
    ([(⟨"Program", 2, ["f1"], ["v1"], [["a"]]⟩ : ExportBlock)] ≠ []) ∧
    (∀ blk ∈ ([⟨"Program", 2, ["f1"], ["v1"], [["a"]]⟩] : List ExportBlock),
      blk.header0.length ≤ blk.block_width ∧
      blk.header1.length ≤ blk.block_width ∧
      ∀ r ∈ blk.row_data, r.length ≤ blk.block_width) ∧
    (∃ (mx : Nat) (L : List (List String)),
      listMax (([⟨"Program", 2, ["f1"], ["v1"], [["a"]]⟩] :
          List ExportBlock).map (fun c => c.block_width)) = .ok mx ∧
      (∀ blk ∈ ([⟨"Program", 2, ["f1"], ["v1"], [["a"]]⟩] : List ExportBlock),
        blk.block_width ≤ mx) ∧
      (∃ blk ∈ ([⟨"Program", 2, ["f1"], ["v1"], [["a"]]⟩] : List ExportBlock),
        blk.block_width = mx) ∧
      ExportConverter.build_csv_from_row_data
          [⟨"Program", 2, ["f1"], ["v1"], [["a"]]⟩]
        = .ok (CsvStringBuilder.get_csv_string ⟨mx + 1, L⟩) ∧
      L = ([⟨"Program", 2, ["f1"], ["v1"], [["a"]]⟩] :
          List ExportBlock).flatMap
          (ExportConverter.specBlockSegment (mx + 1)) ∧
      (∀ line ∈ L, line.length = mx + 1)) :=
  ⟨by decide, by decide,
    build_csv_from_row_data_spec _ (by decide) (by decide)⟩

/-- `_create_event_with_relationship` keeps the two mapping dictionaries
mutually inverse. -/
theorem mappings_inverse_create_event_with_relationship (st : BuilderState)
    (task : CycleTaskGroupObjectTask) (person_id : Nat)
    (h : CalendarEventBuilder.MappingsInverse st) :
    CalendarEventBuilder.MappingsInverse
      (CalendarEventBuilder.create_event_with_relationship st task
        person_id) := by
  intro tid eid
  simp only [CalendarEventBuilder.create_event_with_relationship, mapInsert]
  by_cases ht : tid = task.id <;> by_cases he : eid = st.next_event_id <;>
    simp [ht, he, Finset.mem_insert, h tid eid, h task.id eid,
      h tid st.next_event_id, h task.id st.next_event_id]

/-- `_create_event_relationship` keeps the two mapping dictionaries mutually
inverse. -/
theorem mappings_inverse_create_event_relationship (st : BuilderState)
    (task : CycleTaskGroupObjectTask) (event : CalendarEvent)
    (h : CalendarEventBuilder.MappingsInverse st) :
    CalendarEventBuilder.MappingsInverse
      (CalendarEventBuilder.create_event_relationship st task event) := by
  intro tid eid
  simp only [CalendarEventBuilder.create_event_relationship]
  by_cases hrel : getRelationship st event.id task.id
  · simp [hrel, h tid eid]
  · simp only [hrel, Bool.false_eq_true, if_neg, not_false_iff, mapInsert]
    by_cases ht : tid = task.id <;> by_cases he : eid = event.id <;>
      simp [ht, he, Finset.mem_insert, h tid eid, h task.id eid,
        h tid event.id, h task.id event.id]

/-- `_delete_event_relationship` keeps the two mapping dictionaries mutually
inverse. -/
theorem mappings_inverse_delete_event_relationship (st : BuilderState)
    (event_id task_id : Nat)
    (h : CalendarEventBuilder.MappingsInverse st) :
    CalendarEventBuilder.MappingsInverse
      (CalendarEventBuilder.delete_event_relationship st event_id
        task_id) := by
  intro tid eid
  simp only [CalendarEventBuilder.delete_event_relationship]
  by_cases hrel : getRelationship st event_id task_id
  · simp only [hrel, if_pos, mapDiscard]
    by_cases ht : tid = task_id <;> by_cases he : eid = event_id <;>
      simp [ht, he, Finset.mem_erase, h tid eid, h task_id eid,
        h tid event_id, h task_id event_id]
  · simp [hrel, h tid eid]

/-- C9: after any sequence of the three mapping-touching operations, the two
mapping dictionaries of the builder stay mutually inverse: an event id is in
`task_mappings[task_id]` iff the task id is in `event_mappings[event_id]`. -/
theorem builder_mappings_inverse (st : BuilderState)
    (ops : List CalendarEventBuilder.BuilderOp)
    (h : CalendarEventBuilder.MappingsInverse st) :
    CalendarEventBuilder.MappingsInverse
      (CalendarEventBuilder.applyOps st ops) := by
  induction ops generalizing st with
  | nil => exact h
  | cons op t ih =>
      refine ih (CalendarEventBuilder.applyOp st op) ?_
      cases op with
      | createWithRel task pid =>
          exact mappings_inverse_create_event_with_relationship st task pid h
      | createRel task event =>
          exact mappings_inverse_create_event_relationship st task event h
      | deleteRel event_id task_id =>
          exact mappings_inverse_delete_event_relationship st event_id
            task_id h

/-- Witness for C9: a create / ensure / delete sequence from the initial
builder state. -/
theorem builder_mappings_inverse_witness :
    CalendarEventBuilder.MappingsInverse (initialBuilderState [] [] 0 "") ∧
    CalendarEventBuilder.MappingsInverse
      (CalendarEventBuilder.applyOps (initialBuilderState [] [] 0 "")
        [.createWithRel
            ⟨7, 5, "t", .Assigned, false, false, false, false, fun _ => []⟩ 1,
         .createRel
            ⟨7, 5, "t", .Assigned, false, false, false, false, fun _ => []⟩
            ⟨0, 5, 1, "T", 1⟩,
         .deleteRel 0 7]) :=
  ⟨fun tid eid => by simp [initialBuilderState],
    builder_mappings_inverse _ _ (fun tid eid => by
      simp [initialBuilderState])⟩

/-- Appending events whose attendees all differ from `p` does not change the
result of the event lookup for `p`. -/
theorem find_event_append (p d : Nat) (l2 l1 : List CalendarEvent)
    (h : ∀ e ∈ l2, e.attendee_id ≠ p) :
    (l1 ++ l2).find? (fun e => e.attendee_id == p && e.due_date == d)
      = l1.find? (fun e => e.attendee_id == p && e.due_date == d) := by
  induction l1 with
  | nil =>
      simp only [List.nil_append, List.find?_nil]
      apply List.find?_eq_none.mpr
      intro e he
      simp only [Bool.and_eq_true, beq_iff_eq, not_and]
      intro h1
      exact absurd h1 (h e he)
  | cons a t ih =>
      rw [List.cons_append]
      cases hpa : (a.attendee_id == p && a.due_date == d) with
      | true => simp only [List.find?_cons, hpa]
      | false =>
          simp only [List.find?_cons, hpa]
          exact ih

/-- Event lookup only depends on the stored events. -/
theorem getEvent_congr (st1 st2 : BuilderState) (p d : Nat)
    (h : st1.events = st2.events) :
    getEventByDateAndAttendee st1 p d = getEventByDateAndAttendee st2 p d := by
  unfold getEventByDateAndAttendee
  rw [h]

/-- Event lookup for `p` is unchanged by appending events for other
attendees. -/
theorem getEvent_append_ne (st1 st : BuilderState) (ex : List CalendarEvent)
    (h : st1.events = st.events ++ ex) (q d : Nat)
    (hq : ∀ e ∈ ex, e.attendee_id ≠ q) :
    getEventByDateAndAttendee st1 q d = getEventByDateAndAttendee st q d := by
  unfold getEventByDateAndAttendee
  rw [h]
  exact find_event_append q d ex st.events hq

/-- The found event is a stored event with the looked-up attendee and due
date. -/
theorem getEvent_some_facts (st : BuilderState) (p d : Nat)
    (ev : CalendarEvent) (h : getEventByDateAndAttendee st p d = some ev) :
    ev ∈ st.events ∧ ev.attendee_id = p ∧ ev.due_date = d := by
  refine ⟨List.mem_of_find?_eq_some h, ?_⟩
  have := List.find?_some h
  simp only [Bool.and_eq_true, beq_iff_eq] at this
  exact this

/-- `CalendarEventBuilder.confirmedFrom` over a person with no stored event drops that person. -/
theorem confirmedFrom_cons_none (st : BuilderState) (d p : Nat)
    (pt : List Nat) (hfind : getEventByDateAndAttendee st p d = none) :
    CalendarEventBuilder.confirmedFrom st d (p :: pt) = CalendarEventBuilder.confirmedFrom st d pt := by
  simp [CalendarEventBuilder.confirmedFrom, List.filterMap_cons, hfind]

/-- `CalendarEventBuilder.confirmedFrom` over a person with a stored event collects its id. -/
theorem confirmedFrom_cons_some (st : BuilderState) (d p : Nat)
    (pt : List Nat) (ev : CalendarEvent)
    (hfind : getEventByDateAndAttendee st p d = some ev) :
    CalendarEventBuilder.confirmedFrom st d (p :: pt) = insert ev.id (CalendarEventBuilder.confirmedFrom st d pt) := by
  simp [CalendarEventBuilder.confirmedFrom, List.filterMap_cons, hfind]

/-- `CalendarEventBuilder.confirmedFrom` only depends on the stored events. -/
theorem confirmedFrom_congr (st1 st2 : BuilderState) (d : Nat)
    (ps : List Nat) (h : st1.events = st2.events) :
    CalendarEventBuilder.confirmedFrom st1 d ps = CalendarEventBuilder.confirmedFrom st2 d ps := by
  unfold CalendarEventBuilder.confirmedFrom
  have : ∀ p ∈ ps, (getEventByDateAndAttendee st1 p d).map
      (fun e => e.id) = (getEventByDateAndAttendee st2 p d).map
      (fun e => e.id) := by
    intro p hp
    rw [getEvent_congr st1 st2 p d h]
  rw [List.filterMap_congr this]

/-- Erasing then subtracting equals subtracting the inserted set. -/
theorem erase_sdiff_insert_eq (s C : Finset Nat) (a : Nat) :
    (s.erase a) \ C = s \ insert a C := by
  ext x
  simp only [Finset.mem_sdiff, Finset.mem_erase, Finset.mem_insert]
  tauto

/-- Structural facts about `_create_event_relationship`: events and next id
are unchanged, old relationship rows persist and the ensured row is
present. -/
theorem create_event_relationship_facts (st : BuilderState)
    (task : CycleTaskGroupObjectTask) (ev : CalendarEvent) :
    (CalendarEventBuilder.create_event_relationship st task ev).events
      = st.events ∧
    (CalendarEventBuilder.create_event_relationship st task ev).next_event_id
      = st.next_event_id ∧
    (∀ r ∈ st.rels,
      r ∈ (CalendarEventBuilder.create_event_relationship st task ev).rels) ∧
    (task.id, ev.id)
      ∈ (CalendarEventBuilder.create_event_relationship st task ev).rels ∧
    (∀ r ∈ (CalendarEventBuilder.create_event_relationship st task ev).rels,
      r ∈ st.rels ∨ r = (task.id, ev.id)) := by
  unfold CalendarEventBuilder.create_event_relationship
  by_cases hrel : getRelationship st ev.id task.id
  · have hmem : (task.id, ev.id) ∈ st.rels := by
      have := hrel
      unfold getRelationship at this
      exact List.elem_iff.mp this
    rw [if_pos hrel]
    exact ⟨rfl, rfl, fun r hr => hr, hmem, fun r hr => Or.inl hr⟩
  · rw [if_neg hrel]
    refine ⟨rfl, rfl, ?_, ?_, ?_⟩
    · intro r hr
      exact List.mem_append_left _ hr
    · exact List.mem_append_right _ (List.mem_singleton.mpr rfl)
    · intro r hr
      rcases List.mem_append.mp hr with hr | hr
      · exact Or.inl hr
      · exact Or.inr (List.mem_singleton.mp hr)

/-- `_create_event_relationship` keeps relationship rows duplicate-free. -/
theorem create_event_relationship_nodup (st : BuilderState)
    (task : CycleTaskGroupObjectTask) (ev : CalendarEvent)
    (h3 : st.rels.Nodup) :
    (CalendarEventBuilder.create_event_relationship st task ev).rels.Nodup
    := by
  unfold CalendarEventBuilder.create_event_relationship
  by_cases hrel : getRelationship st ev.id task.id
  · rw [if_pos hrel]
    exact h3
  · have hnmem : (task.id, ev.id) ∉ st.rels := by
      intro hcontra
      apply hrel
      unfold getRelationship
      exact List.elem_iff.mpr hcontra
    rw [if_neg hrel]
    simp [List.nodup_append, h3, hnmem]

/-- Structural facts about one step of the pending-event deletion loop:
events, next id and the mapping-independent parts behave as expected. -/
theorem delete_event_relationship_facts (st : BuilderState)
    (event_id task_id : Nat) :
    (CalendarEventBuilder.delete_event_relationship st event_id
      task_id).events = st.events ∧
    (CalendarEventBuilder.delete_event_relationship st event_id
      task_id).next_event_id = st.next_event_id ∧
    (∀ r ∈ (CalendarEventBuilder.delete_event_relationship st event_id
      task_id).rels, r ∈ st.rels) := by
  unfold CalendarEventBuilder.delete_event_relationship
  by_cases hrel : getRelationship st event_id task_id
  · rw [if_pos hrel]
    exact ⟨rfl, rfl, fun r hr => List.mem_of_mem_erase hr⟩
  · rw [if_neg hrel]
    exact ⟨rfl, rfl, fun r hr => hr⟩

/-- One deletion step keeps relationship rows duplicate-free. -/
theorem delete_event_relationship_nodup (st : BuilderState)
    (event_id task_id : Nat) (h3 : st.rels.Nodup) :
    (CalendarEventBuilder.delete_event_relationship st event_id
      task_id).rels.Nodup := by
  unfold CalendarEventBuilder.delete_event_relationship
  by_cases hrel : getRelationship st event_id task_id
  · rw [if_pos hrel]
    exact h3.erase _
  · rw [if_neg hrel]
    exact h3

/-- After one deletion step for `(task_id, event_id)`, that row is gone
(relationship rows being duplicate-free). -/
theorem delete_event_relationship_removes (st : BuilderState)
    (event_id task_id : Nat) (h3 : st.rels.Nodup) :
    (task_id, event_id)
      ∉ (CalendarEventBuilder.delete_event_relationship st event_id
          task_id).rels := by
  unfold CalendarEventBuilder.delete_event_relationship
  by_cases hrel : getRelationship st event_id task_id
  · rw [if_pos hrel]
    intro hcontra
    have := (List.Nodup.mem_erase_iff h3).mp hcontra
    exact this.1 rfl
  · rw [if_neg hrel]
    intro hcontra
    apply hrel
    unfold getRelationship
    exact List.elem_iff.mpr hcontra

/-- One deletion step keeps every other relationship row. -/
theorem delete_event_relationship_keeps (st : BuilderState)
    (event_id task_id : Nat) (r : Nat × Nat) (hr : r ∈ st.rels)
    (hne : r ≠ (task_id, event_id)) :
    r ∈ (CalendarEventBuilder.delete_event_relationship st event_id
      task_id).rels := by
  unfold CalendarEventBuilder.delete_event_relationship
  by_cases hrel : getRelationship st event_id task_id
  · rw [if_pos hrel]
    exact List.mem_erase_of_ne hne |>.mpr hr
  · rw [if_neg hrel]
    exact hr

/-- `confirmedFrom` is determined by the lookups of the listed persons. -/
theorem confirmedFrom_congr_on (st1 st2 : BuilderState) (d : Nat)
    (ps : List Nat)
    (h : ∀ p ∈ ps, getEventByDateAndAttendee st1 p d
      = getEventByDateAndAttendee st2 p d) :
    CalendarEventBuilder.confirmedFrom st1 d ps
      = CalendarEventBuilder.confirmedFrom st2 d ps := by
  unfold CalendarEventBuilder.confirmedFrom
  rw [List.filterMap_congr (fun p hp => by rw [h p hp])]

/-- Components of `_create_event_with_relationship`: the new event, the new
relationship row and the advanced event id counter. -/
theorem create_event_with_relationship_facts (st : BuilderState)
    (task : CycleTaskGroupObjectTask) (person_id : Nat) :
    ∃ newEv : CalendarEvent,
      newEv.id = st.next_event_id ∧ newEv.due_date = task.end_date ∧
      newEv.attendee_id = person_id ∧
      (CalendarEventBuilder.create_event_with_relationship st task
        person_id).events = st.events ++ [newEv] ∧
      (CalendarEventBuilder.create_event_with_relationship st task
        person_id).rels = st.rels ++ [(task.id, st.next_event_id)] ∧
      (CalendarEventBuilder.create_event_with_relationship st task
        person_id).next_event_id = st.next_event_id + 1 :=
  ⟨_, rfl, rfl, rfl, rfl, rfl, rfl⟩

/-- Invariants of the person loop of `_generate_events_for_task`, by
induction over the list of persons to notify: the event id counter grows; the
events grow by new events for listed persons at the task's end date, each
with its relationship row; old relationship rows persist; the pending set
only shrinks, and ends as the initial pending set minus the ids of the
pre-existing events found for listed persons; every listed person ends up
with a stored event carrying a relationship row whose id is not pending. -/
theorem person_fold_spec (task : CycleTaskGroupObjectTask) :
    ∀ (ps : List Nat) (st : BuilderState) (eids : Finset Nat),
      ps.Nodup →
      (∀ e ∈ st.events, e.id < st.next_event_id) →
      (∀ x ∈ eids, x < st.next_event_id) →
      st.rels.Nodup →
      (∀ r ∈ st.rels, r.2 < st.next_event_id) →
      st.next_event_id
          ≤ (CalendarEventBuilder.personFold task st eids ps).1.next_event_id
        ∧
      (∃ ex, (CalendarEventBuilder.personFold task st eids ps).1.events
          = st.events ++ ex ∧
        ∀ ev ∈ ex, ev.attendee_id ∈ ps ∧ ev.due_date = task.end_date ∧
          st.next_event_id ≤ ev.id ∧
          (task.id, ev.id)
            ∈ (CalendarEventBuilder.personFold task st eids ps).1.rels) ∧
      (∀ r ∈ st.rels,
        r ∈ (CalendarEventBuilder.personFold task st eids ps).1.rels) ∧
      (CalendarEventBuilder.personFold task st eids ps).2 ⊆ eids ∧
      (∀ e ∈ (CalendarEventBuilder.personFold task st eids ps).1.events,
        e.id
          < (CalendarEventBuilder.personFold task st eids ps).1.next_event_id)
        ∧
      (CalendarEventBuilder.personFold task st eids ps).1.rels.Nodup ∧
      (∀ r ∈ (CalendarEventBuilder.personFold task st eids ps).1.rels,
        r.2
          < (CalendarEventBuilder.personFold task st eids ps).1.next_event_id)
        ∧
      (∀ p ∈ ps, ∃ ev,
        ev ∈ (CalendarEventBuilder.personFold task st eids ps).1.events ∧
        ev.attendee_id = p ∧ ev.due_date = task.end_date ∧
        (task.id, ev.id)
          ∈ (CalendarEventBuilder.personFold task st eids ps).1.rels ∧
        ev.id ∉ (CalendarEventBuilder.personFold task st eids ps).2) ∧
      (CalendarEventBuilder.personFold task st eids ps).2
        = eids \ CalendarEventBuilder.confirmedFrom st task.end_date ps ∧
      (∀ p ∈ ps, ∀ ev,
        getEventByDateAndAttendee st p task.end_date = some ev →
        (task.id, ev.id)
          ∈ (CalendarEventBuilder.personFold task st eids ps).1.rels ∧
        ev.id ∉ (CalendarEventBuilder.personFold task st eids ps).2) := by
  intro ps
  induction ps with
  | nil =>
      intro st eids hnd h1 h2 h3 h4
      refine ⟨le_refl _, ⟨[], by simp [CalendarEventBuilder.personFold],
        by simp⟩, fun r hr => hr,
        fun x hx => hx, h1, h3, h4, by simp, ?_, by simp⟩
      simp [CalendarEventBuilder.personFold,
        CalendarEventBuilder.confirmedFrom]
  | cons p pt ih =>
      intro st eids hnd h1 h2 h3 h4
      obtain ⟨hp_nmem, hnd'⟩ := List.nodup_cons.mp hnd
      cases hfind : getEventByDateAndAttendee st p task.end_date with
      | none =>
          obtain ⟨newEv, hid, hdue, hatt, hev1, hrels1, hnext1⟩ :=
            create_event_with_relationship_facts st task p
          have hstep : CalendarEventBuilder.personFold task st eids (p :: pt)
              = CalendarEventBuilder.personFold task
                  (CalendarEventBuilder.create_event_with_relationship st
                    task p) eids pt := by
            simp [CalendarEventBuilder.personFold, List.foldl_cons,
              CalendarEventBuilder.processPerson, hfind]
          set st1 := CalendarEventBuilder.create_event_with_relationship st
            task p with hst1
          have h1' : ∀ e ∈ st1.events, e.id < st1.next_event_id := by
            intro e he
            rw [hev1] at he
            rw [hnext1]
            rcases List.mem_append.mp he with he | he
            · exact lt_trans (h1 e he) (Nat.lt_succ_self _)
            · rw [List.mem_singleton.mp he, hid]
              exact Nat.lt_succ_self _
          have h2' : ∀ x ∈ eids, x < st1.next_event_id := by
            intro x hx
            rw [hnext1]
            exact lt_trans (h2 x hx) (Nat.lt_succ_self _)
          have h3' : st1.rels.Nodup := by
            rw [hrels1]
            refine List.Nodup.append h3 (List.nodup_singleton _) ?_
            intro a ha hb
            rw [List.mem_singleton.mp hb] at ha
            exact absurd (h4 _ ha) (lt_irrefl _)
          have h4' : ∀ r ∈ st1.rels, r.2 < st1.next_event_id := by
            intro r hr
            rw [hrels1] at hr
            rw [hnext1]
            rcases List.mem_append.mp hr with hr | hr
            · exact lt_trans (h4 r hr) (Nat.lt_succ_self _)
            · rw [List.mem_singleton.mp hr]
              exact Nat.lt_succ_self _
          obtain ⟨B1, B2, B3, B4, B5, B6, B7, B8, B9, B10⟩ :=
            ih st1 eids hnd' h1' h2' h3' h4'
          have hstab : ∀ q ∈ pt, getEventByDateAndAttendee st1 q
              task.end_date = getEventByDateAndAttendee st q task.end_date :=
            by
            intro q hq
            refine getEvent_append_ne st1 st [newEv] hev1 q task.end_date ?_
            intro e he
            rw [List.mem_singleton.mp he, hatt]
            intro hcontra
            rw [hcontra] at hp_nmem
            exact hp_nmem hq
          have hnewrel : (task.id, newEv.id)
              ∈ (CalendarEventBuilder.personFold task st1 eids pt).1.rels :=
            by
            refine B3 _ ?_
            rw [hrels1, hid]
            exact List.mem_append_right _ (List.mem_singleton.mpr rfl)
          rw [hstep]
          obtain ⟨ex, hex, hexprops⟩ := B2
          refine ⟨?_, ?_, ?_, B4, B5, B6, B7, ?_, ?_, ?_⟩
          · exact le_trans (by rw [hnext1]; exact Nat.le_succ _) B1
          · refine ⟨newEv :: ex, ?_, ?_⟩
            · rw [hex, hev1]
              simp
            · intro ev hev
              rcases List.mem_cons.mp hev with hev | hev
              · subst hev
                exact ⟨by rw [hatt]; exact List.mem_cons_self p pt, hdue,
                  by rw [hid], hnewrel⟩
              · obtain ⟨ha, hb, hc, hd⟩ := hexprops ev hev
                refine ⟨List.mem_cons_of_mem p ha, hb, ?_, hd⟩
                refine le_trans ?_ hc
                rw [hnext1]
                exact Nat.le_succ _
          · intro r hr
            refine B3 r ?_
            rw [hrels1]
            exact List.mem_append_left _ hr
          · intro q hq
            rcases List.mem_cons.mp hq with hq | hq
            · subst hq
              refine ⟨newEv, ?_, hatt, hdue, hnewrel, ?_⟩
              · rw [hex]
                refine List.mem_append_left _ ?_
                rw [hev1]
                exact List.mem_append_right _ (List.mem_singleton.mpr rfl)
              · intro hcontra
                have := h2 _ (B4 hcontra)
                rw [hid] at this
                exact lt_irrefl _ this
            · exact B8 q hq
          · rw [B9, confirmedFrom_congr_on st1 st task.end_date pt hstab,
              confirmedFrom_cons_none st task.end_date p pt hfind]
          · intro q hq ev hfq
            rcases List.mem_cons.mp hq with hq | hq
            · subst hq
              rw [hfind] at hfq
              exact absurd hfq (Option.noConfusion)
            · refine B10 q hq ev ?_
              rw [hstab q hq]
              exact hfq
      | some ev =>
          obtain ⟨hev_mem, hev_att, hev_due⟩ :=
            getEvent_some_facts st p task.end_date ev hfind
          obtain ⟨hC_ev, hC_next, hC_sup, hC_mem, hC_sub⟩ :=
            create_event_relationship_facts st task ev
          have hstep : CalendarEventBuilder.personFold task st eids (p :: pt)
              = CalendarEventBuilder.personFold task
                  (CalendarEventBuilder.create_event_relationship st task ev)
                  (eids.erase ev.id) pt := by
            simp [CalendarEventBuilder.personFold, List.foldl_cons,
              CalendarEventBuilder.processPerson, hfind]
          set st1 := CalendarEventBuilder.create_event_relationship st task
            ev with hst1
          have h1' : ∀ e ∈ st1.events, e.id < st1.next_event_id := by
            intro e he
            rw [hC_ev] at he
            rw [hC_next]
            exact h1 e he
          have h2' : ∀ x ∈ eids.erase ev.id, x < st1.next_event_id := by
            intro x hx
            rw [hC_next]
            exact h2 x (Finset.mem_of_mem_erase hx)
          have h3' : st1.rels.Nodup :=
            create_event_relationship_nodup st task ev h3
          have h4' : ∀ r ∈ st1.rels, r.2 < st1.next_event_id := by
            intro r hr
            rw [hC_next]
            rcases hC_sub r hr with hr' | hr'
            · exact h4 r hr'
            · rw [hr']
              exact h1 ev hev_mem
          obtain ⟨B1, B2, B3, B4, B5, B6, B7, B8, B9, B10⟩ :=
            ih st1 (eids.erase ev.id) hnd' h1' h2' h3' h4'
          have hstab : ∀ q ∈ pt, getEventByDateAndAttendee st1 q
              task.end_date = getEventByDateAndAttendee st q task.end_date :=
            by
            intro q hq
            exact getEvent_congr st1 st q task.end_date hC_ev
          have hevrel : (task.id, ev.id)
              ∈ (CalendarEventBuilder.personFold task st1
                  (eids.erase ev.id) pt).1.rels := B3 _ hC_mem
          have hev_npend :
              ev.id ∉ (CalendarEventBuilder.personFold task st1
                (eids.erase ev.id) pt).2 := by
            intro hcontra
            exact absurd (B4 hcontra) (Finset.not_mem_erase _ _)
          rw [hstep]
          obtain ⟨ex, hex, hexprops⟩ := B2
          refine ⟨?_, ?_, ?_, ?_, B5, B6, B7, ?_, ?_, ?_⟩
          · rw [← hC_next]
            exact B1
          · refine ⟨ex, ?_, ?_⟩
            · rw [hex, hC_ev]
            · intro e he
              obtain ⟨ha, hb, hc, hd⟩ := hexprops e he
              refine ⟨List.mem_cons_of_mem p ha, hb, ?_, hd⟩
              rw [← hC_next]
              exact hc
          · intro r hr
            exact B3 r (hC_sup r hr)
          · intro x hx
            exact Finset.mem_of_mem_erase (B4 hx)
          · intro q hq
            rcases List.mem_cons.mp hq with hq | hq
            · subst hq
              refine ⟨ev, ?_, hev_att, hev_due, hevrel, hev_npend⟩
              rw [hex, hC_ev]
              exact List.mem_append_left _ hev_mem
            · exact B8 q hq
          · rw [B9, confirmedFrom_congr_on st1 st task.end_date pt hstab,
              confirmedFrom_cons_some st task.end_date p pt ev hfind,
              erase_sdiff_insert_eq]
          · intro q hq ev' hfq
            rcases List.mem_cons.mp hq with hq | hq
            · subst hq
              rw [hfind] at hfq
              obtain rfl := Option.some.inj hfq
              exact ⟨hevrel, hev_npend⟩
            · refine B10 q hq ev' ?_
              rw [hstab q hq]
              exact hfq

/-- Invariants of the pending-event deletion loop of
`_generate_events_for_task`: events and the id counter are untouched,
relationship rows only disappear, duplicate-freeness is kept, every pending
pair of this task is gone afterwards, and rows whose event id is not pending
survive. -/
theorem del_fold_spec (task_id : Nat) :
    ∀ (L : List Nat) (s : BuilderState),
      ((L.foldl (fun s e =>
        CalendarEventBuilder.delete_event_relationship s e task_id) s).events
        = s.events) ∧
      ((L.foldl (fun s e =>
        CalendarEventBuilder.delete_event_relationship s e task_id)
          s).next_event_id = s.next_event_id) ∧
      (∀ r ∈ (L.foldl (fun s e =>
        CalendarEventBuilder.delete_event_relationship s e task_id) s).rels,
        r ∈ s.rels) ∧
      (s.rels.Nodup → (L.foldl (fun s e =>
        CalendarEventBuilder.delete_event_relationship s e task_id)
          s).rels.Nodup) ∧
      (s.rels.Nodup → ∀ e ∈ L, (task_id, e) ∉ (L.foldl (fun s e =>
        CalendarEventBuilder.delete_event_relationship s e task_id) s).rels) ∧
      (∀ r ∈ s.rels, r.2 ∉ L → r ∈ (L.foldl (fun s e =>
        CalendarEventBuilder.delete_event_relationship s e task_id) s).rels)
    := by
  intro L
  induction L with
  | nil =>
      intro s
      exact ⟨rfl, rfl, fun r hr => hr, fun h => h, by simp,
        fun r hr _ => hr⟩
  | cons e t ih =>
      intro s
      obtain ⟨d_ev, d_next, d_sub⟩ :=
        delete_event_relationship_facts s e task_id
      obtain ⟨D_ev, D_next, D_sub, D_nodup, D_rem, D_keep⟩ :=
        ih (CalendarEventBuilder.delete_event_relationship s e task_id)
      rw [List.foldl_cons]
      refine ⟨D_ev.trans d_ev, D_next.trans d_next, ?_, ?_, ?_, ?_⟩
      · intro r hr
        exact d_sub r (D_sub r hr)
      · intro h
        exact D_nodup (delete_event_relationship_nodup s e task_id h)
      · intro h e' he'
        rcases List.mem_cons.mp he' with he' | he'
        · subst he'
          intro hcontra
          exact delete_event_relationship_removes s e' task_id h
            (D_sub _ hcontra)
        · exact D_rem (delete_event_relationship_nodup s e task_id h) e' he'
      · intro r hr hnr
        have hne : r ≠ (task_id, e) := by
          intro hcontra
          apply hnr
          rw [hcontra]
          exact List.mem_cons_self e t
        have hnt : r.2 ∉ t := fun hc => hnr (List.mem_cons_of_mem e hc)
        exact D_keep r
          (delete_event_relationship_keeps s e task_id r hr hne) hnt

/-- C2: in one `_generate_events_for_task` pass, an eligible task gets, for
every person to notify, a stored event (new or pre-existing) at the task's
end date with a relationship row to the task; of the previously mapped event
ids, exactly those not re-confirmed in the pass lose their relationship row,
the re-confirmed ones keep it.  For an ineligible task no event is created
and every previously mapped relationship row of the task is gone. -/
theorem generate_events_for_task_spec (st : BuilderState)
    (task : CycleTaskGroupObjectTask)
    (h1 : ∀ e ∈ st.events, e.id < st.next_event_id)
    (h2 : ∀ x ∈ st.task_mappings task.id, x < st.next_event_id)
    (h3 : st.rels.Nodup)
    (h4 : ∀ r ∈ st.rels, r.2 < st.next_event_id) :
    (CalendarEventBuilder.should_create_event_for task = true →
      (∀ p ∈ CalendarEventBuilder.get_task_persons_ids_to_notify task,
        ∃ ev, ev ∈ (CalendarEventBuilder.generate_events_for_task st
            task).events ∧
          ev.attendee_id = p ∧ ev.due_date = task.end_date ∧
          (task.id, ev.id) ∈ (CalendarEventBuilder.generate_events_for_task
            st task).rels) ∧
      (∀ eid ∈ st.task_mappings task.id,
        (eid ∉ CalendarEventBuilder.confirmedEventIds st task →
          (task.id, eid) ∉ (CalendarEventBuilder.generate_events_for_task st
            task).rels) ∧
        (eid ∈ CalendarEventBuilder.confirmedEventIds st task →
          (task.id, eid) ∈ (CalendarEventBuilder.generate_events_for_task st
            task).rels))) ∧
    (CalendarEventBuilder.should_create_event_for task = false →
      (CalendarEventBuilder.generate_events_for_task st task).events
        = st.events ∧
      ∀ eid ∈ st.task_mappings task.id,
        (task.id, eid) ∉ (CalendarEventBuilder.generate_events_for_task st
          task).rels) := by
  constructor
  · intro helig
    have hnodup : (CalendarEventBuilder.get_task_persons_ids_to_notify
        task).Nodup := List.nodup_dedup _
    obtain ⟨B1, B2, B3, B4, B5, B6, B7, B8, B9, B10⟩ :=
      person_fold_spec task
        (CalendarEventBuilder.get_task_persons_ids_to_notify task) st
        (st.task_mappings task.id) hnodup h1 h2 h3 h4
    have hgen : CalendarEventBuilder.generate_events_for_task st task
        = (((CalendarEventBuilder.personFold task st
            (st.task_mappings task.id)
            (CalendarEventBuilder.get_task_persons_ids_to_notify
              task)).2).sort (· ≤ ·)).foldl
          (fun s e => CalendarEventBuilder.delete_event_relationship s e
            task.id)
          (CalendarEventBuilder.personFold task st
            (st.task_mappings task.id)
            (CalendarEventBuilder.get_task_persons_ids_to_notify task)).1
        := by
      unfold CalendarEventBuilder.generate_events_for_task
      rw [helig]
      rfl
    obtain ⟨D_ev, D_next, D_sub, D_nodup, D_rem, D_keep⟩ :=
      del_fold_spec task.id
        (((CalendarEventBuilder.personFold task st
          (st.task_mappings task.id)
          (CalendarEventBuilder.get_task_persons_ids_to_notify
            task)).2).sort (· ≤ ·))
        (CalendarEventBuilder.personFold task st (st.task_mappings task.id)
          (CalendarEventBuilder.get_task_persons_ids_to_notify task)).1
    constructor
    · intro p hp
      obtain ⟨ev, hev_mem, hev_att, hev_due, hev_rel, hev_np⟩ := B8 p hp
      refine ⟨ev, ?_, hev_att, hev_due, ?_⟩
      · rw [hgen, D_ev]
        exact hev_mem
      · rw [hgen]
        refine D_keep _ hev_rel ?_
        intro hcontra
        exact hev_np ((Finset.mem_sort _).mp hcontra)
    · intro eid heid
      constructor
      · intro hnconf
        have hpend : eid ∈ (CalendarEventBuilder.personFold task st
            (st.task_mappings task.id)
            (CalendarEventBuilder.get_task_persons_ids_to_notify
              task)).2 := by
          rw [B9]
          exact Finset.mem_sdiff.mpr ⟨heid, hnconf⟩
        rw [hgen]
        exact D_rem B6 eid ((Finset.mem_sort _).mpr hpend)
      · intro hconf
        have hconf' : eid ∈ (CalendarEventBuilder.get_task_persons_ids_to_notify
            task).filterMap (fun p =>
              (getEventByDateAndAttendee st p task.end_date).map
                (fun e => e.id)) := List.mem_toFinset.mp hconf
        obtain ⟨q, hq, hmap⟩ := List.mem_filterMap.mp hconf'
        obtain ⟨ev, hfq, hevid⟩ := Option.map_eq_some'.mp hmap
        obtain ⟨hrel, hnp⟩ := B10 q hq ev hfq
        rw [hgen, ← hevid]
        refine D_keep _ hrel ?_
        intro hcontra
        exact hnp ((Finset.mem_sort _).mp hcontra)
  · intro hinelig
    have hgen : CalendarEventBuilder.generate_events_for_task st task
        = (((st.task_mappings task.id).sort (· ≤ ·)).foldl
          (fun s e => CalendarEventBuilder.delete_event_relationship s e
            task.id) st) := by
      unfold CalendarEventBuilder.generate_events_for_task
      rw [hinelig]
      rfl
    obtain ⟨D_ev, D_next, D_sub, D_nodup, D_rem, D_keep⟩ :=
      del_fold_spec task.id ((st.task_mappings task.id).sort (· ≤ ·)) st
    constructor
    · rw [hgen]
      exact D_ev
    · intro eid heid
      rw [hgen]
      exact D_rem h3 eid ((Finset.mem_sort _).mpr heid)

/-- C5: every calendar event the builder creates during a
`_generate_events_for_task` pass is due on the task's end date, its attendee
holds the "Task Assignees" or "Task Secondary Assignees" role on the task,
and a relationship row with the task as source and the event as destination
is present afterwards. -/
theorem created_event_props (st : BuilderState)
    (task : CycleTaskGroupObjectTask)
    (h1 : ∀ e ∈ st.events, e.id < st.next_event_id)
    (h2 : ∀ x ∈ st.task_mappings task.id, x < st.next_event_id)
    (h3 : st.rels.Nodup)
    (h4 : ∀ r ∈ st.rels, r.2 < st.next_event_id) :
    ∀ ev, ev ∈ (CalendarEventBuilder.generate_events_for_task st
        task).events →
      ev ∉ st.events →
      ev.due_date = task.end_date ∧
      (ev.attendee_id ∈ task.person_ids_for_rolename "Task Assignees" ∨
        ev.attendee_id
          ∈ task.person_ids_for_rolename "Task Secondary Assignees") ∧
      (task.id, ev.id) ∈ (CalendarEventBuilder.generate_events_for_task st
        task).rels := by
  intro ev hev hnev
  cases helig : CalendarEventBuilder.should_create_event_for task with
  | false =>
      have hgen : CalendarEventBuilder.generate_events_for_task st task
          = (((st.task_mappings task.id).sort (· ≤ ·)).foldl
            (fun s e => CalendarEventBuilder.delete_event_relationship s e
              task.id) st) := by
        unfold CalendarEventBuilder.generate_events_for_task
        rw [helig]
        rfl
      obtain ⟨D_ev, D_next, D_sub, D_nodup, D_rem, D_keep⟩ :=
        del_fold_spec task.id ((st.task_mappings task.id).sort (· ≤ ·)) st
      rw [hgen, D_ev] at hev
      exact absurd hev hnev
  | true =>
      have hnodup : (CalendarEventBuilder.get_task_persons_ids_to_notify
          task).Nodup := List.nodup_dedup _
      obtain ⟨B1, B2, B3, B4, B5, B6, B7, B8, B9, B10⟩ :=
        person_fold_spec task
          (CalendarEventBuilder.get_task_persons_ids_to_notify task) st
          (st.task_mappings task.id) hnodup h1 h2 h3 h4
      have hgen : CalendarEventBuilder.generate_events_for_task st task
          = (((CalendarEventBuilder.personFold task st
              (st.task_mappings task.id)
              (CalendarEventBuilder.get_task_persons_ids_to_notify
                task)).2).sort (· ≤ ·)).foldl
            (fun s e => CalendarEventBuilder.delete_event_relationship s e
              task.id)
            (CalendarEventBuilder.personFold task st
              (st.task_mappings task.id)
              (CalendarEventBuilder.get_task_persons_ids_to_notify task)).1
          := by
        unfold CalendarEventBuilder.generate_events_for_task
        rw [helig]
        rfl
      obtain ⟨D_ev, D_next, D_sub, D_nodup, D_rem, D_keep⟩ :=
        del_fold_spec task.id
          (((CalendarEventBuilder.personFold task st
            (st.task_mappings task.id)
            (CalendarEventBuilder.get_task_persons_ids_to_notify
              task)).2).sort (· ≤ ·))
          (CalendarEventBuilder.personFold task st (st.task_mappings task.id)
            (CalendarEventBuilder.get_task_persons_ids_to_notify task)).1
      rw [hgen, D_ev] at hev
      obtain ⟨ex, hex, hexp⟩ := B2
      rw [hex] at hev
      rcases List.mem_append.mp hev with hev' | hev'
      · exact absurd hev' hnev
      · obtain ⟨hatt, hdue, hge, hrel⟩ := hexp ev hev'
        have hatt' : ev.attendee_id
            ∈ task.person_ids_for_rolename "Task Assignees" ∨
            ev.attendee_id
              ∈ task.person_ids_for_rolename "Task Secondary Assignees" := by
          have hmem := List.mem_dedup.mp hatt
          simpa using hmem
        refine ⟨hdue, hatt', ?_⟩
        rw [hgen]
        refine D_keep _ hrel ?_
        intro hcontra
        have hpend := (Finset.mem_sort _).mp hcontra
        have hlt := h2 _ (B4 hpend)
        omega

/-- Witness for C2: an eligible task with one assignee, from an empty
builder state. -/
theorem generate_events_for_task_spec_witness :
    (∀ e ∈ (initialBuilderState [] [] 0 "").events, e.id < (initialBuilderState [] [] 0 "").next_event_id) ∧
    (∀ x ∈ (initialBuilderState [] [] 0 "").task_mappings
      (⟨7, 5, "t", CycleTaskStatus.Assigned, true, false, false, false,
      fun r => if r = "Task Assignees" then [1] else []⟩ :
      CycleTaskGroupObjectTask).id, x < (initialBuilderState [] [] 0 "").next_event_id) ∧
    (initialBuilderState [] [] 0 "").rels.Nodup ∧
    (∀ r ∈ (initialBuilderState [] [] 0 "").rels, r.2 < (initialBuilderState [] [] 0 "").next_event_id) ∧
    ((CalendarEventBuilder.should_create_event_for
        (⟨7, 5, "t", CycleTaskStatus.Assigned, true, false, false, false,
      fun r => if r = "Task Assignees" then [1] else []⟩ :
      CycleTaskGroupObjectTask) = true →
      (∀ p ∈ CalendarEventBuilder.get_task_persons_ids_to_notify
          (⟨7, 5, "t", CycleTaskStatus.Assigned, true, false, false, false,
      fun r => if r = "Task Assignees" then [1] else []⟩ :
      CycleTaskGroupObjectTask),
        ∃ ev, ev ∈ (CalendarEventBuilder.generate_events_for_task (initialBuilderState [] [] 0 "")
          (⟨7, 5, "t", CycleTaskStatus.Assigned, true, false, false, false,
      fun r => if r = "Task Assignees" then [1] else []⟩ :
      CycleTaskGroupObjectTask)).events ∧
          ev.attendee_id = p ∧ ev.due_date =
            (⟨7, 5, "t", CycleTaskStatus.Assigned, true, false, false, false,
      fun r => if r = "Task Assignees" then [1] else []⟩ :
      CycleTaskGroupObjectTask).end_date ∧
          ((⟨7, 5, "t", CycleTaskStatus.Assigned, true, false, false, false,
      fun r => if r = "Task Assignees" then [1] else []⟩ :
      CycleTaskGroupObjectTask).id, ev.id) ∈ (CalendarEventBuilder.generate_events_for_task (initialBuilderState [] [] 0 "")
          (⟨7, 5, "t", CycleTaskStatus.Assigned, true, false, false, false,
      fun r => if r = "Task Assignees" then [1] else []⟩ :
      CycleTaskGroupObjectTask)).rels) ∧
      (∀ eid ∈ (initialBuilderState [] [] 0 "").task_mappings
          (⟨7, 5, "t", CycleTaskStatus.Assigned, true, false, false, false,
      fun r => if r = "Task Assignees" then [1] else []⟩ :
      CycleTaskGroupObjectTask).id,
        (eid ∉ CalendarEventBuilder.confirmedEventIds (initialBuilderState [] [] 0 "")
            (⟨7, 5, "t", CycleTaskStatus.Assigned, true, false, false, false,
      fun r => if r = "Task Assignees" then [1] else []⟩ :
      CycleTaskGroupObjectTask) →
          ((⟨7, 5, "t", CycleTaskStatus.Assigned, true, false, false, false,
      fun r => if r = "Task Assignees" then [1] else []⟩ :
      CycleTaskGroupObjectTask).id, eid) ∉ (CalendarEventBuilder.generate_events_for_task (initialBuilderState [] [] 0 "")
          (⟨7, 5, "t", CycleTaskStatus.Assigned, true, false, false, false,
      fun r => if r = "Task Assignees" then [1] else []⟩ :
      CycleTaskGroupObjectTask)).rels) ∧
        (eid ∈ CalendarEventBuilder.confirmedEventIds (initialBuilderState [] [] 0 "")
            (⟨7, 5, "t", CycleTaskStatus.Assigned, true, false, false, false,
      fun r => if r = "Task Assignees" then [1] else []⟩ :
      CycleTaskGroupObjectTask) →
          ((⟨7, 5, "t", CycleTaskStatus.Assigned, true, false, false, false,
      fun r => if r = "Task Assignees" then [1] else []⟩ :
      CycleTaskGroupObjectTask).id, eid) ∈ (CalendarEventBuilder.generate_events_for_task (initialBuilderState [] [] 0 "")
          (⟨7, 5, "t", CycleTaskStatus.Assigned, true, false, false, false,
      fun r => if r = "Task Assignees" then [1] else []⟩ :
      CycleTaskGroupObjectTask)).rels))) ∧
    (CalendarEventBuilder.should_create_event_for
        (⟨7, 5, "t", CycleTaskStatus.Assigned, true, false, false, false,
      fun r => if r = "Task Assignees" then [1] else []⟩ :
      CycleTaskGroupObjectTask) = false →
      (CalendarEventBuilder.generate_events_for_task (initialBuilderState [] [] 0 "")
          (⟨7, 5, "t", CycleTaskStatus.Assigned, true, false, false, false,
      fun r => if r = "Task Assignees" then [1] else []⟩ :
      CycleTaskGroupObjectTask)).events = (initialBuilderState [] [] 0 "").events ∧
      ∀ eid ∈ (initialBuilderState [] [] 0 "").task_mappings
          (⟨7, 5, "t", CycleTaskStatus.Assigned, true, false, false, false,
      fun r => if r = "Task Assignees" then [1] else []⟩ :
      CycleTaskGroupObjectTask).id,
        ((⟨7, 5, "t", CycleTaskStatus.Assigned, true, false, false, false,
      fun r => if r = "Task Assignees" then [1] else []⟩ :
      CycleTaskGroupObjectTask).id, eid) ∉ (CalendarEventBuilder.generate_events_for_task (initialBuilderState [] [] 0 "")
          (⟨7, 5, "t", CycleTaskStatus.Assigned, true, false, false, false,
      fun r => if r = "Task Assignees" then [1] else []⟩ :
      CycleTaskGroupObjectTask)).rels)) :=
  ⟨by decide, by decide, by decide, by decide,
    generate_events_for_task_spec (initialBuilderState [] [] 0 "")
      (⟨7, 5, "t", CycleTaskStatus.Assigned, true, false, false, false,
      fun r => if r = "Task Assignees" then [1] else []⟩ :
      CycleTaskGroupObjectTask)
      (by decide) (by decide) (by decide) (by decide)⟩

/-- Witness for C5: the same eligible task and empty builder state. -/
theorem created_event_props_witness :
    (∀ e ∈ (initialBuilderState [] [] 0 "").events, e.id < (initialBuilderState [] [] 0 "").next_event_id) ∧
    (∀ x ∈ (initialBuilderState [] [] 0 "").task_mappings
      (⟨7, 5, "t", CycleTaskStatus.Assigned, true, false, false, false,
      fun r => if r = "Task Assignees" then [1] else []⟩ :
      CycleTaskGroupObjectTask).id, x < (initialBuilderState [] [] 0 "").next_event_id) ∧
    (initialBuilderState [] [] 0 "").rels.Nodup ∧
    (∀ r ∈ (initialBuilderState [] [] 0 "").rels, r.2 < (initialBuilderState [] [] 0 "").next_event_id) ∧
    (∀ ev, ev ∈ (CalendarEventBuilder.generate_events_for_task (initialBuilderState [] [] 0 "")
          (⟨7, 5, "t", CycleTaskStatus.Assigned, true, false, false, false,
      fun r => if r = "Task Assignees" then [1] else []⟩ :
      CycleTaskGroupObjectTask)).events →
      ev ∉ (initialBuilderState [] [] 0 "").events →
      ev.due_date = (⟨7, 5, "t", CycleTaskStatus.Assigned, true, false, false, false,
      fun r => if r = "Task Assignees" then [1] else []⟩ :
      CycleTaskGroupObjectTask).end_date ∧
      (ev.attendee_id ∈ (⟨7, 5, "t", CycleTaskStatus.Assigned, true, false, false, false,
      fun r => if r = "Task Assignees" then [1] else []⟩ :
      CycleTaskGroupObjectTask).person_ids_for_rolename "Task Assignees" ∨
        ev.attendee_id
          ∈ (⟨7, 5, "t", CycleTaskStatus.Assigned, true, false, false, false,
      fun r => if r = "Task Assignees" then [1] else []⟩ :
      CycleTaskGroupObjectTask).person_ids_for_rolename "Task Secondary Assignees") ∧
      ((⟨7, 5, "t", CycleTaskStatus.Assigned, true, false, false, false,
      fun r => if r = "Task Assignees" then [1] else []⟩ :
      CycleTaskGroupObjectTask).id, ev.id) ∈ (CalendarEventBuilder.generate_events_for_task (initialBuilderState [] [] 0 "")
          (⟨7, 5, "t", CycleTaskStatus.Assigned, true, false, false, false,
      fun r => if r = "Task Assignees" then [1] else []⟩ :
      CycleTaskGroupObjectTask)).rels) :=
  ⟨by decide, by decide, by decide, by decide,
    created_event_props (initialBuilderState [] [] 0 "")
      (⟨7, 5, "t", CycleTaskStatus.Assigned, true, false, false, false,
      fun r => if r = "Task Assignees" then [1] else []⟩ :
      CycleTaskGroupObjectTask)
      (by decide) (by decide) (by decide) (by decide)⟩
